import Mathlib

/-!
Verification of the Bitcoin retirement calculator.

Shallow embeddings of the power-law price model (`src/src/models/PowerLaw.ts`),
the smart withdrawal strategy (`src/unnamed/part_001`), the bear-market
survival tests and helpers (`src/src/utils/RetirementCalculations.ts`,
`src/unnamed/part_004`), and the 50-year withdrawal simulators
(`src/unnamed/part_004`, `src/src/components/BitcoinChart.tsx`), with
theorems settling the specification claims.

Modelling conventions:
* JavaScript floating-point arithmetic is embedded as exact arithmetic:
  `ℝ` for the transcendental power law, `ℚ` for all simulation logic.
  Division is total on `ℚ`/`ℝ` with `x / 0 = 0`; theorems about code paths
  that divide carry the positivity hypotheses under which the embedded
  arithmetic agrees with the JavaScript semantics.
* `Math.pow` with the fractional exponent 5.82 is transcendental, hence not
  executable; the `ℚ`-valued simulation embeddings therefore take the fair
  value of the relevant dates as a function argument (`fvYear` for January-1
  fair values, `fvMonth` for monthly projection dates), and derive the floor
  and upper bound from it exactly as `PowerLaw.ts` derives them
  (`fairValue × 0.42`, `fairValue × 2.0`).
* Presentation-only numeric string interpolation (`toFixed`,
  `toLocaleString`) inside label strings is omitted; the constant parts of
  the labels (phase names, strategy tags, the `(DEPLETED)` marker) are kept.
-/

/-- Thread a state through a list from the left, collecting one output per
element (the shape of the JavaScript `for`-loops that push rows while
updating running totals). -/
def mapAccumL {α σ β : Type} (f : σ → α → β × σ) : σ → List α → List β × σ
  | s, [] => ([], s)
  | s, a :: as =>
    let bs := f s a
    let rest := mapAccumL f bs.2 as
    (bs.1 :: rest.1, rest.2)

namespace BitcoinPowerLaw

/-- Bitcoin genesis block timestamp in milliseconds
(`BITCOIN_GENESIS_TIMESTAMP` in `PowerLaw.ts`). -/
noncomputable def BITCOIN_GENESIS_TIMESTAMP : ℝ := 1231006505000

/-- Power-law coefficient (`POWER_LAW_A = 1.01e-17` in `PowerLaw.ts`). -/
noncomputable def POWER_LAW_A : ℝ := 1.01e-17

/-- Power-law exponent (`POWER_LAW_B = 5.82` in `PowerLaw.ts`). -/
noncomputable def POWER_LAW_B : ℝ := 5.82

/-- `getDaysSinceGenesis`: elapsed days since the genesis timestamp, clamped
below at 1 day.  A `Date` is modelled by its timestamp in milliseconds. -/
noncomputable def getDaysSinceGenesis (timeMs : ℝ) : ℝ :=
  max 1 ((timeMs - BITCOIN_GENESIS_TIMESTAMP) / (1000 * 60 * 60 * 24))

/-- `calculateFairValue`: `A × daysSinceGenesis ^ B` (real power). -/
noncomputable def calculateFairValue (timeMs : ℝ) : ℝ :=
  POWER_LAW_A * getDaysSinceGenesis timeMs ^ POWER_LAW_B

/-- `calculateFloorPrice`: `fairValue × 0.42`. -/
noncomputable def calculateFloorPrice (timeMs : ℝ) : ℝ :=
  calculateFairValue timeMs * 0.42

/-- `calculateUpperBound`: `fairValue × 2.0`. -/
noncomputable def calculateUpperBound (timeMs : ℝ) : ℝ :=
  calculateFairValue timeMs * 2.0

theorem one_le_getDaysSinceGenesis (t : ℝ) : 1 ≤ getDaysSinceGenesis t :=
  le_max_left _ _

theorem calculateFairValue_pos (t : ℝ) : 0 < calculateFairValue t := by
  have hbase : (0 : ℝ) < getDaysSinceGenesis t :=
    lt_of_lt_of_le one_pos (one_le_getDaysSinceGenesis t)
  have hpow : (0 : ℝ) < getDaysSinceGenesis t ^ POWER_LAW_B :=
    Real.rpow_pos_of_pos hbase _
  have hA : (0 : ℝ) < POWER_LAW_A := by norm_num [POWER_LAW_A]
  exact mul_pos hA hpow

end BitcoinPowerLaw

/-- C6: for every representable date (any real timestamp, including dates at
or before the genesis epoch, where the day count is clamped to 1), the price
model satisfies `floorValue = 0.42 × fairValue`, `upperBound = 2 × fairValue`
and `0 < floorValue < fairValue < upperBound`; the model is total, so no date
is an error. -/
theorem powerLaw_pricing_invariants (t : ℝ) :
    BitcoinPowerLaw.calculateFloorPrice t = 0.42 * BitcoinPowerLaw.calculateFairValue t ∧
    BitcoinPowerLaw.calculateUpperBound t = 2 * BitcoinPowerLaw.calculateFairValue t ∧
    0 < BitcoinPowerLaw.calculateFloorPrice t ∧
    BitcoinPowerLaw.calculateFloorPrice t < BitcoinPowerLaw.calculateFairValue t ∧
    BitcoinPowerLaw.calculateFairValue t < BitcoinPowerLaw.calculateUpperBound t := by
  have hfair := BitcoinPowerLaw.calculateFairValue_pos t
  refine ⟨by rw [BitcoinPowerLaw.calculateFloorPrice, mul_comm], ?_, ?_, ?_, ?_⟩
  · rw [BitcoinPowerLaw.calculateUpperBound, mul_comm]
    norm_num
  · rw [BitcoinPowerLaw.calculateFloorPrice]
    nlinarith
  · rw [BitcoinPowerLaw.calculateFloorPrice]
    nlinarith
  · rw [BitcoinPowerLaw.calculateUpperBound]
    nlinarith

namespace SmartWithdrawalStrategy

/-- The closed enumeration of `recommendedAction` tags in
`SmartWithdrawalStrategy` (`src/unnamed/part_001`). -/
inductive RecommendedAction where
  | HODL_BITCOIN
  | SPEND_BITCOIN
  | BALANCED
  | EMERGENCY_ONLY
deriving DecidableEq

/-- `WithdrawalDecision` from `src/unnamed/part_001`.  The `reasoning` field
(free-form text interpolating formatted numbers) is presentation-only and is
omitted from the embedding. -/
structure WithdrawalDecision where
  useCashAmount : ℚ
  useBitcoinAmount : ℚ
  strategy : String
  fairValueRatio : ℚ
  recommendedAction : RecommendedAction
deriving DecidableEq

/-- `WithdrawalContext` from `src/unnamed/part_001`.  The `currentDate` field
is replaced by the power-law fair value the source computes from it
(`BitcoinPowerLaw.calculateFairValue(currentDate)`), since the real power is
not executable. -/
structure WithdrawalContext where
  currentBitcoinPrice : ℚ
  fairValue : ℚ
  availableCash : ℚ
  availableBitcoin : ℚ
  withdrawalNeeded : ℚ
  emergencyMode : Bool := false
deriving DecidableEq

/-- `extremeUndervaluedStrategy` (ratio ≤ 0.5): use all available cash first,
sell bitcoin only for the shortfall. -/
def extremeUndervaluedStrategy (availableCash availableBitcoin withdrawalNeeded
    fairValueRatio currentPrice : ℚ) : WithdrawalDecision :=
  if availableCash ≥ withdrawalNeeded then
    { useCashAmount := withdrawalNeeded
      useBitcoinAmount := 0
      strategy := "Cash Only (Extreme HODL)"
      fairValueRatio := fairValueRatio
      recommendedAction := .HODL_BITCOIN }
  else
    let bitcoinNeeded := (withdrawalNeeded - availableCash) / currentPrice
    { useCashAmount := availableCash
      useBitcoinAmount := bitcoinNeeded
      strategy := "Cash First, Minimal Bitcoin"
      fairValueRatio := fairValueRatio
      recommendedAction := .HODL_BITCOIN }

/-- `undervaluedStrategy` (0.5 < ratio ≤ 0.8): prefer cash for at least 80% of
the need. -/
def undervaluedStrategy (availableCash availableBitcoin withdrawalNeeded
    fairValueRatio currentPrice : ℚ) : WithdrawalDecision :=
  let cashRatio := min 1.0 (availableCash / withdrawalNeeded)
  let preferredCashUsage := withdrawalNeeded * max 0.8 cashRatio
  if availableCash ≥ preferredCashUsage then
    let bitcoinNeeded := max 0 ((withdrawalNeeded - preferredCashUsage) / currentPrice)
    { useCashAmount := preferredCashUsage
      useBitcoinAmount := bitcoinNeeded
      strategy := if bitcoinNeeded > 0 then "Mostly Cash (80%+)" else "Cash Only"
      fairValueRatio := fairValueRatio
      recommendedAction := .HODL_BITCOIN }
  else
    let bitcoinNeeded := (withdrawalNeeded - availableCash) / currentPrice
    { useCashAmount := availableCash
      useBitcoinAmount := bitcoinNeeded
      strategy := "Cash First, Some Bitcoin"
      fairValueRatio := fairValueRatio
      recommendedAction := .HODL_BITCOIN }

/-- `fairValueStrategy` (0.8 < ratio ≤ 1.2): proportional blend with a mild
cash bias (cash capped at 60% of the need or 1.2× the cash-value share). -/
def fairValueStrategy (availableCash availableBitcoin withdrawalNeeded
    fairValueRatio currentPrice : ℚ) : WithdrawalDecision :=
  let totalValue := availableCash + availableBitcoin * currentPrice
  let cashRatio := availableCash / totalValue
  let preferredCashUsage := min availableCash (withdrawalNeeded * min 0.6 (cashRatio * 1.2))
  let bitcoinUsage := max 0 ((withdrawalNeeded - preferredCashUsage) / currentPrice)
  { useCashAmount := preferredCashUsage
    useBitcoinAmount := bitcoinUsage
    strategy := "Balanced Withdrawal"
    fairValueRatio := fairValueRatio
    recommendedAction := .BALANCED }

/-- `overvaluedStrategy` (1.2 < ratio ≤ 2.5): bitcoin only if it covers the
need, otherwise up to 80% bitcoin with cash covering the rest. -/
def overvaluedStrategy (availableCash availableBitcoin withdrawalNeeded
    fairValueRatio currentPrice : ℚ) : WithdrawalDecision :=
  let bitcoinValue := availableBitcoin * currentPrice
  if bitcoinValue ≥ withdrawalNeeded then
    { useCashAmount := 0
      useBitcoinAmount := withdrawalNeeded / currentPrice
      strategy := "Bitcoin Only (Take Profits)"
      fairValueRatio := fairValueRatio
      recommendedAction := .SPEND_BITCOIN }
  else
    let maxBitcoinUsage := min availableBitcoin (withdrawalNeeded * 0.8 / currentPrice)
    let cashNeeded := max 0 (withdrawalNeeded - maxBitcoinUsage * currentPrice)
    { useCashAmount := min availableCash cashNeeded
      useBitcoinAmount := maxBitcoinUsage
      strategy := "Mostly Bitcoin (80%+)"
      fairValueRatio := fairValueRatio
      recommendedAction := .SPEND_BITCOIN }

/-- `bubbleStrategy` (2.5 < ratio ≤ 5.0): bitcoin only, capped at the
available bitcoin. -/
def bubbleStrategy (availableCash availableBitcoin withdrawalNeeded
    fairValueRatio currentPrice : ℚ) : WithdrawalDecision :=
  let bitcoinNeeded := withdrawalNeeded / currentPrice
  { useCashAmount := 0
    useBitcoinAmount := min availableBitcoin bitcoinNeeded
    strategy := "Bitcoin Only (Bubble Profits)"
    fairValueRatio := fairValueRatio
    recommendedAction := .SPEND_BITCOIN }

/-- `extremeBubbleStrategy` (ratio > 5.0): bitcoin only, capped at the
available bitcoin. -/
def extremeBubbleStrategy (availableCash availableBitcoin withdrawalNeeded
    fairValueRatio currentPrice : ℚ) : WithdrawalDecision :=
  let bitcoinNeeded := withdrawalNeeded / currentPrice
  { useCashAmount := 0
    useBitcoinAmount := min availableBitcoin bitcoinNeeded
    strategy := "Bitcoin Only (Extreme Bubble)"
    fairValueRatio := fairValueRatio
    recommendedAction := .SPEND_BITCOIN }

/-- `emergencyWithdrawal`: cash first, then liquidate the bitcoin shortfall at
the current price. -/
def emergencyWithdrawal (context : WithdrawalContext) (fairValueRatio : ℚ) :
    WithdrawalDecision :=
  if context.availableCash ≥ context.withdrawalNeeded then
    { useCashAmount := context.withdrawalNeeded
      useBitcoinAmount := 0
      strategy := "Emergency Cash"
      fairValueRatio := fairValueRatio
      recommendedAction := .EMERGENCY_ONLY }
  else
    let bitcoinNeeded := (context.withdrawalNeeded - context.availableCash) / context.currentBitcoinPrice
    { useCashAmount := context.availableCash
      useBitcoinAmount := bitcoinNeeded
      strategy := "Emergency Mixed"
      fairValueRatio := fairValueRatio
      recommendedAction := .EMERGENCY_ONLY }

/-- `calculateOptimalStrategy`: dispatch on the fair-value ratio into the six
valuation bands.  (The source also computes `bitcoinValue`/`totalAssets` at
this point but never uses them.) -/
def calculateOptimalStrategy (fairValueRatio currentPrice fairValue floorValue upperBound
    availableCash availableBitcoin withdrawalNeeded : ℚ) : WithdrawalDecision :=
  if fairValueRatio ≤ 0.5 then
    extremeUndervaluedStrategy availableCash availableBitcoin withdrawalNeeded fairValueRatio currentPrice
  else if fairValueRatio ≤ 0.8 then
    undervaluedStrategy availableCash availableBitcoin withdrawalNeeded fairValueRatio currentPrice
  else if fairValueRatio ≤ 1.2 then
    fairValueStrategy availableCash availableBitcoin withdrawalNeeded fairValueRatio currentPrice
  else if fairValueRatio ≤ 2.5 then
    overvaluedStrategy availableCash availableBitcoin withdrawalNeeded fairValueRatio currentPrice
  else if fairValueRatio ≤ 5.0 then
    bubbleStrategy availableCash availableBitcoin withdrawalNeeded fairValueRatio currentPrice
  else
    extremeBubbleStrategy availableCash availableBitcoin withdrawalNeeded fairValueRatio currentPrice

/-- `calculateWithdrawal`: the public entry point.  The source derives
`fairValue`, `floorValue` and `upperBound` from `context.currentDate` via
`BitcoinPowerLaw`; here `context.fairValue` carries that fair value and the
floor/upper multiples are applied exactly as `PowerLaw.ts` does. -/
def calculateWithdrawal (context : WithdrawalContext) : WithdrawalDecision :=
  let fairValue := context.fairValue
  let floorValue := fairValue * 0.42
  let upperBound := fairValue * 2.0
  let fairValueRatio := context.currentBitcoinPrice / fairValue
  if context.emergencyMode then
    emergencyWithdrawal context fairValueRatio
  else
    calculateOptimalStrategy fairValueRatio context.currentBitcoinPrice fairValue
      floorValue upperBound context.availableCash context.availableBitcoin
      context.withdrawalNeeded

end SmartWithdrawalStrategy

namespace SmartWithdrawalStrategy

theorem extremeUndervaluedStrategy_spec (cash btc needed r price : ℚ)
    (hc : 0 ≤ cash) (hp : 0 < price) (hn : 0 ≤ needed) :
    0 ≤ (extremeUndervaluedStrategy cash btc needed r price).useCashAmount ∧
    (extremeUndervaluedStrategy cash btc needed r price).useCashAmount ≤ cash ∧
    0 ≤ (extremeUndervaluedStrategy cash btc needed r price).useBitcoinAmount ∧
    (extremeUndervaluedStrategy cash btc needed r price).useCashAmount +
      (extremeUndervaluedStrategy cash btc needed r price).useBitcoinAmount * price ≤ needed := by
  unfold extremeUndervaluedStrategy
  split_ifs with h
  · refine ⟨hn, by linarith, le_refl 0, by ring_nf; linarith⟩
  · push_neg at h
    refine ⟨hc, le_refl cash, div_nonneg (by linarith) hp.le, ?_⟩
    rw [div_mul_cancel₀ _ (ne_of_gt hp)]
    linarith

theorem undervaluedStrategy_spec (cash btc needed r price : ℚ)
    (hc : 0 ≤ cash) (hp : 0 < price) (hn : 0 ≤ needed) :
    0 ≤ (undervaluedStrategy cash btc needed r price).useCashAmount ∧
    (undervaluedStrategy cash btc needed r price).useCashAmount ≤ cash ∧
    0 ≤ (undervaluedStrategy cash btc needed r price).useBitcoinAmount ∧
    (undervaluedStrategy cash btc needed r price).useCashAmount +
      (undervaluedStrategy cash btc needed r price).useBitcoinAmount * price ≤ needed := by
  unfold undervaluedStrategy
  dsimp only
  have hmaxle : max (0.8 : ℚ) (min 1.0 (cash / needed)) ≤ 1 :=
    max_le (by norm_num) (le_trans (min_le_left _ _) (by norm_num))
  have hmaxge : (0.8 : ℚ) ≤ max (0.8 : ℚ) (min 1.0 (cash / needed)) := le_max_left _ _
  have hpref_nonneg : 0 ≤ needed * max (0.8 : ℚ) (min 1.0 (cash / needed)) :=
    mul_nonneg hn (by linarith)
  have hpref_le : needed * max (0.8 : ℚ) (min 1.0 (cash / needed)) ≤ needed := by
    nlinarith
  split_ifs with h hbit <;> dsimp only
  · refine ⟨hpref_nonneg, by linarith, le_max_left 0 _, ?_⟩
    rw [max_eq_right (div_nonneg (by linarith) hp.le), div_mul_cancel₀ _ (ne_of_gt hp)]
    linarith
  · refine ⟨hpref_nonneg, by linarith, le_max_left 0 _, ?_⟩
    rw [max_eq_right (div_nonneg (by linarith) hp.le), div_mul_cancel₀ _ (ne_of_gt hp)]
    linarith
  · push_neg at h
    refine ⟨hc, le_refl cash, div_nonneg ?_ hp.le, ?_⟩
    · linarith
    · rw [div_mul_cancel₀ _ (ne_of_gt hp)]
      linarith

theorem fairValueStrategy_spec (cash btc needed r price : ℚ)
    (hc : 0 ≤ cash) (hb : 0 ≤ btc) (hp : 0 < price) (hn : 0 ≤ needed) :
    0 ≤ (fairValueStrategy cash btc needed r price).useCashAmount ∧
    (fairValueStrategy cash btc needed r price).useCashAmount ≤ cash ∧
    0 ≤ (fairValueStrategy cash btc needed r price).useBitcoinAmount ∧
    (fairValueStrategy cash btc needed r price).useCashAmount +
      (fairValueStrategy cash btc needed r price).useBitcoinAmount * price = needed := by
  unfold fairValueStrategy
  dsimp only
  have hratio : 0 ≤ cash / (cash + btc * price) :=
    div_nonneg hc (by nlinarith)
  have hmn : (0 : ℚ) ≤ min 0.6 (cash / (cash + btc * price) * 1.2) :=
    le_min (by norm_num) (by nlinarith)
  have hminle : min (0.6 : ℚ) (cash / (cash + btc * price) * 1.2) ≤ 0.6 := min_le_left _ _
  have hpc_nonneg : 0 ≤ min cash (needed * min 0.6 (cash / (cash + btc * price) * 1.2)) :=
    le_min hc (mul_nonneg hn hmn)
  have hpc_le_cash : min cash (needed * min 0.6 (cash / (cash + btc * price) * 1.2)) ≤ cash :=
    min_le_left _ _
  have hpc_le_needed : min cash (needed * min 0.6 (cash / (cash + btc * price) * 1.2)) ≤ needed := by
    have : needed * min (0.6 : ℚ) (cash / (cash + btc * price) * 1.2) ≤ needed := by nlinarith
    exact le_trans (min_le_right _ _) this
  refine ⟨hpc_nonneg, hpc_le_cash, le_max_left 0 _, ?_⟩
  rw [max_eq_right (div_nonneg (by linarith) hp.le), div_mul_cancel₀ _ (ne_of_gt hp)]
  ring

theorem overvaluedStrategy_spec (cash btc needed r price : ℚ)
    (hc : 0 ≤ cash) (hb : 0 ≤ btc) (hp : 0 < price) (hn : 0 ≤ needed) :
    0 ≤ (overvaluedStrategy cash btc needed r price).useCashAmount ∧
    (overvaluedStrategy cash btc needed r price).useCashAmount ≤ cash ∧
    0 ≤ (overvaluedStrategy cash btc needed r price).useBitcoinAmount ∧
    (overvaluedStrategy cash btc needed r price).useCashAmount +
      (overvaluedStrategy cash btc needed r price).useBitcoinAmount * price ≤ needed := by
  unfold overvaluedStrategy
  dsimp only
  split_ifs with h
  · refine ⟨le_refl 0, hc, div_nonneg hn hp.le, ?_⟩
    rw [div_mul_cancel₀ _ (ne_of_gt hp)]
    linarith
  · push_neg at h
    dsimp only
    have hm_nonneg : 0 ≤ min btc (needed * 0.8 / price) :=
      le_min hb (div_nonneg (by nlinarith) hp.le)
    have hm_le : min btc (needed * 0.8 / price) * price ≤ needed * 0.8 := by
      have h1 : min btc (needed * 0.8 / price) ≤ needed * 0.8 / price := min_le_right _ _
      have h2 : min btc (needed * 0.8 / price) * price ≤ needed * 0.8 / price * price :=
        mul_le_mul_of_nonneg_right h1 hp.le
      rwa [div_mul_cancel₀ _ (ne_of_gt hp)] at h2
    have hcn_nonneg : (0 : ℚ) ≤ max 0 (needed - min btc (needed * 0.8 / price) * price) :=
      le_max_left 0 _
    refine ⟨le_min hc hcn_nonneg, min_le_left _ _, hm_nonneg, ?_⟩
    rcases max_cases (0 : ℚ) (needed - min btc (needed * 0.8 / price) * price) with
      ⟨heq, hle⟩ | ⟨heq, hlt⟩ <;> rw [heq]
    · have h3 : min cash (0 : ℚ) ≤ 0 := min_le_right _ _
      nlinarith
    · have h3 : min cash (needed - min btc (needed * 0.8 / price) * price) ≤
          needed - min btc (needed * 0.8 / price) * price := min_le_right _ _
      nlinarith

theorem bubbleStrategy_spec (cash btc needed r price : ℚ)
    (hc : 0 ≤ cash) (hb : 0 ≤ btc) (hp : 0 < price) (hn : 0 ≤ needed) :
    0 ≤ (bubbleStrategy cash btc needed r price).useCashAmount ∧
    (bubbleStrategy cash btc needed r price).useCashAmount ≤ cash ∧
    0 ≤ (bubbleStrategy cash btc needed r price).useBitcoinAmount ∧
    (bubbleStrategy cash btc needed r price).useCashAmount +
      (bubbleStrategy cash btc needed r price).useBitcoinAmount * price ≤ needed := by
  unfold bubbleStrategy
  dsimp only
  refine ⟨le_refl 0, hc, le_min hb (div_nonneg hn hp.le), ?_⟩
  have h1 : min btc (needed / price) ≤ needed / price := min_le_right _ _
  have h2 : min btc (needed / price) * price ≤ needed / price * price :=
    mul_le_mul_of_nonneg_right h1 hp.le
  rw [div_mul_cancel₀ _ (ne_of_gt hp)] at h2
  linarith

theorem extremeBubbleStrategy_spec (cash btc needed r price : ℚ)
    (hc : 0 ≤ cash) (hb : 0 ≤ btc) (hp : 0 < price) (hn : 0 ≤ needed) :
    0 ≤ (extremeBubbleStrategy cash btc needed r price).useCashAmount ∧
    (extremeBubbleStrategy cash btc needed r price).useCashAmount ≤ cash ∧
    0 ≤ (extremeBubbleStrategy cash btc needed r price).useBitcoinAmount ∧
    (extremeBubbleStrategy cash btc needed r price).useCashAmount +
      (extremeBubbleStrategy cash btc needed r price).useBitcoinAmount * price ≤ needed := by
  unfold extremeBubbleStrategy
  dsimp only
  refine ⟨le_refl 0, hc, le_min hb (div_nonneg hn hp.le), ?_⟩
  have h1 : min btc (needed / price) ≤ needed / price := min_le_right _ _
  have h2 : min btc (needed / price) * price ≤ needed / price * price :=
    mul_le_mul_of_nonneg_right h1 hp.le
  rw [div_mul_cancel₀ _ (ne_of_gt hp)] at h2
  linarith

theorem emergencyWithdrawal_spec (context : WithdrawalContext) (r : ℚ)
    (hc : 0 ≤ context.availableCash) (hp : 0 < context.currentBitcoinPrice)
    (hn : 0 ≤ context.withdrawalNeeded) :
    0 ≤ (emergencyWithdrawal context r).useCashAmount ∧
    (emergencyWithdrawal context r).useCashAmount ≤ context.availableCash ∧
    0 ≤ (emergencyWithdrawal context r).useBitcoinAmount ∧
    (emergencyWithdrawal context r).useCashAmount +
      (emergencyWithdrawal context r).useBitcoinAmount * context.currentBitcoinPrice ≤
      context.withdrawalNeeded := by
  unfold emergencyWithdrawal
  split_ifs with h
  · refine ⟨hn, by linarith, le_refl 0, by ring_nf; linarith⟩
  · push_neg at h
    refine ⟨hc, le_refl _, div_nonneg (by linarith) hp.le, ?_⟩
    rw [div_mul_cancel₀ _ (ne_of_gt hp)]
    linarith

/-- Bounds satisfied by every decision the strategy can return: nonnegative
amounts, cash never exceeding the available cash, and the total drawn value
never exceeding the amount needed. -/
theorem calculateWithdrawal_spec (ctx : WithdrawalContext)
    (hc : 0 ≤ ctx.availableCash) (hb : 0 ≤ ctx.availableBitcoin)
    (hp : 0 < ctx.currentBitcoinPrice) (hn : 0 ≤ ctx.withdrawalNeeded) :
    0 ≤ (calculateWithdrawal ctx).useCashAmount ∧
    (calculateWithdrawal ctx).useCashAmount ≤ ctx.availableCash ∧
    0 ≤ (calculateWithdrawal ctx).useBitcoinAmount ∧
    (calculateWithdrawal ctx).useCashAmount +
      (calculateWithdrawal ctx).useBitcoinAmount * ctx.currentBitcoinPrice ≤
      ctx.withdrawalNeeded := by
  unfold calculateWithdrawal calculateOptimalStrategy
  dsimp only
  split_ifs with hem h1 h2 h3 h4 h5
  · exact emergencyWithdrawal_spec ctx _ hc hp hn
  · exact extremeUndervaluedStrategy_spec _ _ _ _ _ hc hp hn
  · exact undervaluedStrategy_spec _ _ _ _ _ hc hp hn
  · have := fairValueStrategy_spec ctx.availableCash ctx.availableBitcoin
      ctx.withdrawalNeeded (ctx.currentBitcoinPrice / ctx.fairValue)
      ctx.currentBitcoinPrice hc hb hp hn
    exact ⟨this.1, this.2.1, this.2.2.1, le_of_eq this.2.2.2⟩
  · exact overvaluedStrategy_spec _ _ _ _ _ hc hb hp hn
  · exact bubbleStrategy_spec _ _ _ _ _ hc hb hp hn
  · exact extremeBubbleStrategy_spec _ _ _ _ _ hc hb hp hn

end SmartWithdrawalStrategy

/-- C3: for every withdrawal context with nonnegative holdings, positive
price and nonnegative need (and in particular at the fair-value ratios
0.5, 0.8, 1.25, 2.5 and 6.0 with sufficient assets), whenever the selected
band's chosen cash and bitcoin cover the amount needed, the decision
satisfies `useCashAmount + useBitcoinAmount × currentPrice = amountNeeded`
exactly (hence within any floating-point tolerance, in particular within
1 unit). -/
theorem smartWithdrawal_conservation_of_covered
    (ctx : SmartWithdrawalStrategy.WithdrawalContext)
    (hc : 0 ≤ ctx.availableCash) (hb : 0 ≤ ctx.availableBitcoin)
    (hp : 0 < ctx.currentBitcoinPrice) (hn : 0 ≤ ctx.withdrawalNeeded)
    (hcov : ctx.withdrawalNeeded ≤
      (SmartWithdrawalStrategy.calculateWithdrawal ctx).useCashAmount +
        (SmartWithdrawalStrategy.calculateWithdrawal ctx).useBitcoinAmount *
          ctx.currentBitcoinPrice) :
    (SmartWithdrawalStrategy.calculateWithdrawal ctx).useCashAmount +
      (SmartWithdrawalStrategy.calculateWithdrawal ctx).useBitcoinAmount *
        ctx.currentBitcoinPrice = ctx.withdrawalNeeded :=
  le_antisymm (SmartWithdrawalStrategy.calculateWithdrawal_spec ctx hc hb hp hn).2.2.2 hcov

/-- Witness for C3 at the fair-value ratio 1.25 (price 125, fair value 100,
ample assets, need 50): the decision's drawn value equals the need. -/
theorem smartWithdrawal_conservation_of_covered_witness :
    (SmartWithdrawalStrategy.calculateWithdrawal
        ⟨125, 100, 100, 10, 50, false⟩).useCashAmount +
      (SmartWithdrawalStrategy.calculateWithdrawal
        ⟨125, 100, 100, 10, 50, false⟩).useBitcoinAmount * 125 = 50 :=
  smartWithdrawal_conservation_of_covered ⟨125, 100, 100, 10, 50, false⟩
    (by norm_num) (by norm_num) (by norm_num) (by norm_num)
    (by norm_num [SmartWithdrawalStrategy.calculateWithdrawal,
      SmartWithdrawalStrategy.calculateOptimalStrategy,
      SmartWithdrawalStrategy.overvaluedStrategy])

/-- C4 counterexample: in the undervalued band (ratio 0.7) with no cash, one
bitcoin at price 70 and a need of 1000 the assets are insufficient, yet the
decision's `useBitcoinAmount` is 1000/70 ≈ 14.3, strictly more than the one
available bitcoin — the claim that `useBitcoinAmount ≤ availableBitcoin`
fails on the code. -/
theorem smartWithdrawal_insufficient_counterexample :
    (0 : ℚ) + 1 * 70 < 1000 ∧
    (SmartWithdrawalStrategy.calculateWithdrawal
      ⟨70, 100, 0, 1, 1000, false⟩).useBitcoinAmount > 1 := by
  refine ⟨by norm_num, ?_⟩
  norm_num [SmartWithdrawalStrategy.calculateWithdrawal,
    SmartWithdrawalStrategy.calculateOptimalStrategy,
    SmartWithdrawalStrategy.undervaluedStrategy, min_def, max_def]

/-- C4 (amended): when available assets cannot cover the amount needed, the
decision still never throws (the function is total), never uses more cash
than available, never returns a negative cash or bitcoin amount, and never
draws more total value than the amount needed; but the bitcoin leg is not
capped at `availableBitcoin` (the undervalued, fair-value and emergency
branches book the whole shortfall as a bitcoin sale), so the caller detects
the shortfall by comparing the decision against its actual holdings. -/
theorem smartWithdrawal_insufficient_bounds
    (ctx : SmartWithdrawalStrategy.WithdrawalContext)
    (hc : 0 ≤ ctx.availableCash) (hb : 0 ≤ ctx.availableBitcoin)
    (hp : 0 < ctx.currentBitcoinPrice) (hn : 0 ≤ ctx.withdrawalNeeded)
    (hins : ctx.availableCash + ctx.availableBitcoin * ctx.currentBitcoinPrice <
      ctx.withdrawalNeeded) :
    0 ≤ (SmartWithdrawalStrategy.calculateWithdrawal ctx).useCashAmount ∧
    (SmartWithdrawalStrategy.calculateWithdrawal ctx).useCashAmount ≤ ctx.availableCash ∧
    0 ≤ (SmartWithdrawalStrategy.calculateWithdrawal ctx).useBitcoinAmount ∧
    (SmartWithdrawalStrategy.calculateWithdrawal ctx).useCashAmount +
      (SmartWithdrawalStrategy.calculateWithdrawal ctx).useBitcoinAmount *
        ctx.currentBitcoinPrice ≤ ctx.withdrawalNeeded :=
  SmartWithdrawalStrategy.calculateWithdrawal_spec ctx hc hb hp hn

/-- Witness for the amended C4 at the counterexample's context. -/
theorem smartWithdrawal_insufficient_bounds_witness :
    0 ≤ (SmartWithdrawalStrategy.calculateWithdrawal
      ⟨70, 100, 0, 1, 1000, false⟩).useCashAmount ∧
    (SmartWithdrawalStrategy.calculateWithdrawal
      ⟨70, 100, 0, 1, 1000, false⟩).useCashAmount ≤ 0 ∧
    0 ≤ (SmartWithdrawalStrategy.calculateWithdrawal
      ⟨70, 100, 0, 1, 1000, false⟩).useBitcoinAmount ∧
    (SmartWithdrawalStrategy.calculateWithdrawal
        ⟨70, 100, 0, 1, 1000, false⟩).useCashAmount +
      (SmartWithdrawalStrategy.calculateWithdrawal
        ⟨70, 100, 0, 1, 1000, false⟩).useBitcoinAmount * 70 ≤ 1000 :=
  smartWithdrawal_insufficient_bounds ⟨70, 100, 0, 1, 1000, false⟩
    (by norm_num) (by norm_num) (by norm_num) (by norm_num) (by norm_num)

namespace RetirementCalculations

/-- `BearMarketTestResult` from `RetirementCalculations.ts`. -/
structure BearMarketTestResult where
  passes : Bool
  remainingBitcoin : ℚ
  remainingCash : ℚ
deriving DecidableEq

/-- `testBearMarketSurvival` from `src/src/utils/RetirementCalculations.ts`
(the two-withdrawal-year utility variant: year 1 at the floor, year 2 at the
recovery price, then the 20-year runway check at fair value).  The source
derives `fairValue`/`floorValue` from `new Date(year, 0, 1)` via
`BitcoinPowerLaw`; the embedding takes those two power-law values as
arguments.  The early `return`s are encoded with `Option`: `none` stands for
the depletion short-circuit. -/
def testBearMarketSurvival (fairValue floorValue bitcoinHoldings annualWithdrawal : ℚ)
    (cashHoldings : ℚ := 0) : BearMarketTestResult :=
  if bitcoinHoldings ≤ 0 ∨ annualWithdrawal ≤ 0 then
    { passes := false, remainingBitcoin := 0, remainingCash := 0 }
  else
    let b0 := bitcoinHoldings
    let c0 := max 0 cashHoldings
    let deepBearPrice := floorValue
    let afterYear1 : Option (ℚ × ℚ) :=
      if c0 ≥ annualWithdrawal then some (b0, c0 - annualWithdrawal)
      else
        let b1 := b0 - (annualWithdrawal - c0) / deepBearPrice
        if b1 < 0 then none else some (b1, 0)
    match afterYear1 with
    | none => { passes := false, remainingBitcoin := 0, remainingCash := 0 }
    | some (b1, c1) =>
      let bearRecoveryPrice := floorValue + (fairValue - floorValue) * 0.75
      let afterYear2 : Option (ℚ × ℚ) :=
        if c1 ≥ annualWithdrawal then some (b1, c1 - annualWithdrawal)
        else
          let b2 := b1 - (annualWithdrawal - c1) / bearRecoveryPrice
          if b2 < 0 then none else some (b2, 0)
      match afterYear2 with
      | none => { passes := false, remainingBitcoin := 0, remainingCash := 0 }
      | some (b2, c2) =>
        let sustainablePrice := fairValue
        let totalRemainingValue := b2 * sustainablePrice + c2
        let yearsOfRunway := totalRemainingValue / annualWithdrawal
        { passes := decide (yearsOfRunway ≥ 20), remainingBitcoin := b2, remainingCash := c2 }

/-- `CyclePhaseResult` from `RetirementCalculations.ts`. -/
structure CyclePhaseResult where
  price : ℚ
  phase : String
  cycleYear : ℤ
deriving DecidableEq

/-- `calculateCyclePrice` from `RetirementCalculations.ts`: the 4-year cycle
price for a calendar year, keyed on `(year - 1) % 4` (JavaScript truncated
remainder, `Int.tmod`).  The power-law fair value at January 1 of `year` is
passed as `fairValue`; floor and upper bound are the `PowerLaw.ts`
multiples. -/
def calculateCyclePrice (fairValue : ℚ) (year : ℤ) (isCurrentYear : Bool := false) :
    CyclePhaseResult :=
  if isCurrentYear then
    { price := fairValue, phase := "Current Year (Fair Value)", cycleYear := Int.tmod (year - 1) 4 }
  else
    let cycleYear := Int.tmod (year - 1) 4
    let floorValue := fairValue * 0.42
    let upperBound := fairValue * 2.0
    if cycleYear = 0 then
      { price := floorValue, phase := "Deep Bear (Floor)", cycleYear := cycleYear }
    else if cycleYear = 1 then
      { price := floorValue + (fairValue - floorValue) * 0.75, phase := "Bear Market Recovery", cycleYear := cycleYear }
    else if cycleYear = 2 then
      { price := fairValue + (upperBound - fairValue) * 0.7, phase := "Bull Market", cycleYear := cycleYear }
    else if cycleYear = 3 then
      { price := fairValue + (upperBound - fairValue) * 0.3, phase := "Bull Peak & Correction", cycleYear := cycleYear }
    else
      { price := fairValue, phase := "Fair Value", cycleYear := cycleYear }

/-- One monthly row of `calculateMonthlySavingsProjection` in
`RetirementCalculations.ts`. -/
structure SavingsProjectionRow where
  year : ℕ
  month : ℕ
  monthlySavingsAmount : ℚ
  bitcoinFairValue : ℚ
  bitcoinCyclePrice : ℚ
  bitcoinPurchased : ℚ
  totalBitcoinAccumulated : ℚ
  totalCashInvested : ℚ
deriving DecidableEq

/-- The (year, month) index pairs visited by the nested
`for year / for month` loops: `year ∈ [0, years)`, `month ∈ [0, 12)`. -/
def monthIndices (years : ℕ) : List (ℕ × ℕ) :=
  (List.range years).flatMap fun y => (List.range 12).map fun m => (y, m)

/-- The body of the monthly loop of `calculateMonthlySavingsProjection`
(`RetirementCalculations.ts`, lines 163–208), threading the running
`(totalBitcoinAccumulated, totalCashInvested)` pair.  `fvMonth y m` is the
power-law fair value at the projection date of month `m` of loop year `y`;
`fvYear` gives the January-1 fair value used by `calculateCyclePrice`. -/
def savingsProjectionStep (fvMonth : ℕ → ℕ → ℚ) (fvYear : ℤ → ℚ) (startYear : ℤ)
    (monthlySavingsAmount : ℚ) (doubleDownInBearMarkets : Bool)
    (acc : ℚ × ℚ) (ym : ℕ × ℕ) : SavingsProjectionRow × (ℚ × ℚ) :=
  let year := ym.1
  let month := ym.2
  let actualYear := startYear + year
  let cycleYear := Int.tmod (actualYear - 1) 4
  let isBearMarketYear : Bool :=
    decide (0 < year) && (decide (cycleYear = 0) || decide (cycleYear = 1))
  let bitcoinFairValue := fvMonth year month
  let bitcoinCyclePrice :=
    if year = 0 then bitcoinFairValue
    else (calculateCyclePrice (fvYear actualYear) actualYear false).price
  let actualMonthlySavings :=
    if doubleDownInBearMarkets && isBearMarketYear then monthlySavingsAmount * 2
    else monthlySavingsAmount
  let bitcoinPurchased := actualMonthlySavings / bitcoinCyclePrice
  let tb := acc.1 + bitcoinPurchased
  let tc := acc.2 + actualMonthlySavings
  ({ year := year + 1, month := month + 1
     monthlySavingsAmount := actualMonthlySavings
     bitcoinFairValue := bitcoinFairValue
     bitcoinCyclePrice := bitcoinCyclePrice
     bitcoinPurchased := bitcoinPurchased
     totalBitcoinAccumulated := tb
     totalCashInvested := tc }, (tb, tc))

/-- `calculateMonthlySavingsProjection` from `RetirementCalculations.ts`:
the monthly accumulation ledger over `yearsToRetirement` years, starting
from zero running totals. -/
def calculateMonthlySavingsProjection (fvMonth : ℕ → ℕ → ℚ) (fvYear : ℤ → ℚ)
    (startYear : ℤ) (monthlySavingsAmount : ℚ) (yearsToRetirement : ℕ)
    (doubleDownInBearMarkets : Bool) : List SavingsProjectionRow :=
  (mapAccumL
    (savingsProjectionStep fvMonth fvYear startYear monthlySavingsAmount
      doubleDownInBearMarkets)
    (0, 0) (monthIndices yearsToRetirement)).1

/-- `validateRetirementInputs` from `RetirementCalculations.ts`: collects all
applicable violation messages and reports validity as emptiness of the
collected list; it never throws (totality by construction). -/
def validateRetirementInputs (bitcoinAmount cashAmount annualWithdrawal : ℚ) :
    Bool × List String :=
  let errors :=
    (if bitcoinAmount < 0 then ["Bitcoin amount cannot be negative"] else []) ++
    (if cashAmount < 0 then ["Cash amount cannot be negative"] else []) ++
    (if annualWithdrawal ≤ 0 then ["Annual withdrawal must be greater than zero"] else []) ++
    (if bitcoinAmount = 0 ∧ cashAmount = 0 then ["Must have either Bitcoin or cash holdings"] else []) ++
    (if bitcoinAmount > 1000 then ["Bitcoin amount seems unrealistically high (>1000 BTC)"] else []) ++
    (if annualWithdrawal > 10000000 then ["Annual withdrawal seems unrealistically high (>$10M)"] else [])
  (errors.isEmpty, errors)

end RetirementCalculations

/-- C8: for every call to the utility survival test with
`bitcoinHoldings ≤ 0` or `annualWithdrawal ≤ 0` the result is
`{passes := false, remainingBitcoin := 0, remainingCash := 0}` immediately
(the stress sequence never runs), and a negative `cashHoldings` behaves
exactly as `cashHoldings = 0` (it is clamped and never contributes
negatively). -/
theorem bearMarketSurvival_preconditions (fairValue floorValue b w c : ℚ) :
    (b ≤ 0 ∨ w ≤ 0 →
      RetirementCalculations.testBearMarketSurvival fairValue floorValue b w c =
        { passes := false, remainingBitcoin := 0, remainingCash := 0 }) ∧
    (c < 0 →
      RetirementCalculations.testBearMarketSurvival fairValue floorValue b w c =
        RetirementCalculations.testBearMarketSurvival fairValue floorValue b w 0) := by
  constructor
  · intro h
    unfold RetirementCalculations.testBearMarketSurvival
    rw [if_pos h]
  · intro h
    unfold RetirementCalculations.testBearMarketSurvival
    rw [max_eq_left h.le, max_self]

/-- Witness for C8: a nonpositive-bitcoin call short-circuits to the failure
result, and a negative cash amount gives the same result as zero cash. -/
theorem bearMarketSurvival_preconditions_witness :
    (RetirementCalculations.testBearMarketSurvival 100 42 (-1) 10 (-5) =
      { passes := false, remainingBitcoin := 0, remainingCash := 0 }) ∧
    (RetirementCalculations.testBearMarketSurvival 100 42 5 10 (-5) =
      RetirementCalculations.testBearMarketSurvival 100 42 5 10 0) :=
  ⟨(bearMarketSurvival_preconditions 100 42 (-1) 10 (-5)).1 (Or.inl (by norm_num)),
   (bearMarketSurvival_preconditions 100 42 5 10 (-5)).2 (by norm_num)⟩

theorem savingsProjection_step_zero (fvMonth : ℕ → ℕ → ℚ) (fvYear : ℤ → ℚ)
    (startYear : ℤ) (dd : Bool) (lst : List (ℕ × ℕ)) (acc : ℚ × ℚ) (hacc : acc.2 = 0) :
    ((mapAccumL (RetirementCalculations.savingsProjectionStep fvMonth fvYear startYear 0 dd)
        acc lst).1.all fun row =>
      decide (row.bitcoinPurchased = 0) && decide (row.totalCashInvested = 0)) = true := by
  induction lst generalizing acc with
  | nil => rfl
  | cons hd tl ih =>
    rw [mapAccumL]
    simp only [List.all_cons, Bool.and_eq_true, decide_eq_true_eq]
    refine ⟨⟨?_, ?_⟩, ?_⟩
    · simp only [RetirementCalculations.savingsProjectionStep]
      split <;> norm_num
    · simp only [RetirementCalculations.savingsProjectionStep, hacc]
      split <;> norm_num
    · apply ih
      simp only [RetirementCalculations.savingsProjectionStep, hacc]
      split <;> norm_num

/-- C9: the monthly accumulation projection with `yearsToRetirement = 0`
returns the empty sequence, and with `monthlySavingsAmount = 0` (any number
of years) every row has `bitcoinPurchased = 0` and running
`totalCashInvested = 0` (so in particular the final total invested is 0);
neither input is an error — both calls return normally. -/
theorem savingsProjection_zero_edges (fvMonth : ℕ → ℕ → ℚ) (fvYear : ℤ → ℚ)
    (startYear : ℤ) (monthlySavingsAmount : ℚ) (years : ℕ) (dd : Bool) :
    RetirementCalculations.calculateMonthlySavingsProjection fvMonth fvYear startYear
      monthlySavingsAmount 0 dd = [] ∧
    ((RetirementCalculations.calculateMonthlySavingsProjection fvMonth fvYear startYear
        0 years dd).all fun row =>
      decide (row.bitcoinPurchased = 0) && decide (row.totalCashInvested = 0)) = true := by
  constructor
  · rfl
  · exact savingsProjection_step_zero fvMonth fvYear startYear dd
      (RetirementCalculations.monthIndices years) (0, 0) rfl

/-- C10: the input validator is a total function (it never throws), its
`isValid` flag is `true` exactly when the collected error list is empty, and
each of the six violation messages — negative bitcoin, negative cash,
non-positive withdrawal, both holdings zero, and the two caps
`bitcoinAmount > 1000` and `annualWithdrawal > 10000000` — appears in the
list exactly when its condition holds, so all applicable violations are
collected at once. -/
theorem validateRetirementInputs_spec (b c w : ℚ) :
    ((RetirementCalculations.validateRetirementInputs b c w).1 = true ↔
      (RetirementCalculations.validateRetirementInputs b c w).2 = []) ∧
    ("Bitcoin amount cannot be negative" ∈
      (RetirementCalculations.validateRetirementInputs b c w).2 ↔ b < 0) ∧
    ("Cash amount cannot be negative" ∈
      (RetirementCalculations.validateRetirementInputs b c w).2 ↔ c < 0) ∧
    ("Annual withdrawal must be greater than zero" ∈
      (RetirementCalculations.validateRetirementInputs b c w).2 ↔ w ≤ 0) ∧
    ("Must have either Bitcoin or cash holdings" ∈
      (RetirementCalculations.validateRetirementInputs b c w).2 ↔ (b = 0 ∧ c = 0)) ∧
    ("Bitcoin amount seems unrealistically high (>1000 BTC)" ∈
      (RetirementCalculations.validateRetirementInputs b c w).2 ↔ b > 1000) ∧
    ("Annual withdrawal seems unrealistically high (>$10M)" ∈
      (RetirementCalculations.validateRetirementInputs b c w).2 ↔ w > 10000000) := by
  unfold RetirementCalculations.validateRetirementInputs
  dsimp only
  refine ⟨List.isEmpty_iff, ?_, ?_, ?_, ?_, ?_, ?_⟩ <;>
    · simp only [List.mem_append]
      split_ifs <;> simp_all

namespace Part004

/-- Result of the `testBearMarketSurvival` variant in `src/unnamed/part_004`.
Its early `return { passes: false }` statements carry no remaining balances
(they are `undefined` in the source), hence the `Option` fields. -/
structure BearTestResult where
  passes : Bool
  remainingBitcoin : Option ℚ
  remainingCash : Option ℚ
deriving DecidableEq

/-- `testBearMarketSurvival` from `src/unnamed/part_004` (lines 396–462): the
three-withdrawal-year stress test — years 1 and 2 at the power-law floor,
year 3 at the recovery price `floor + (fair − floor) × 0.75` — followed by
the 20-year runway check at fair value.  `fairValue`/`floorValue` are the
power-law values of January 1 of the tested year, passed as arguments.  The
early `return`s are encoded with `Option`: `none` is the depletion
short-circuit. -/
def testBearMarketSurvival (fairValue floorValue bitcoinHoldings annualWithdrawal : ℚ)
    (cashHoldings : ℚ := 0) : BearTestResult :=
  if bitcoinHoldings ≤ 0 ∨ annualWithdrawal ≤ 0 then
    { passes := false, remainingBitcoin := none, remainingCash := none }
  else
    let b0 := bitcoinHoldings
    let c0 := max 0 cashHoldings
    let deepBearPrice := floorValue
    let afterYear1 : Option (ℚ × ℚ) :=
      if c0 ≥ annualWithdrawal then some (b0, c0 - annualWithdrawal)
      else
        let b1 := b0 - (annualWithdrawal - c0) / deepBearPrice
        if b1 < 0 then none else some (b1, 0)
    match afterYear1 with
    | none => { passes := false, remainingBitcoin := none, remainingCash := none }
    | some (b1, c1) =>
      let afterYear2 : Option (ℚ × ℚ) :=
        if c1 ≥ annualWithdrawal then some (b1, c1 - annualWithdrawal)
        else
          let b2 := b1 - (annualWithdrawal - c1) / deepBearPrice
          if b2 < 0 then none else some (b2, 0)
      match afterYear2 with
      | none => { passes := false, remainingBitcoin := none, remainingCash := none }
      | some (b2, c2) =>
        let bearRecoveryPrice := floorValue + (fairValue - floorValue) * 0.75
        let afterYear3 : Option (ℚ × ℚ) :=
          if c2 ≥ annualWithdrawal then some (b2, c2 - annualWithdrawal)
          else
            let b3 := b2 - (annualWithdrawal - c2) / bearRecoveryPrice
            if b3 < 0 then none else some (b3, 0)
        match afterYear3 with
        | none => { passes := false, remainingBitcoin := none, remainingCash := none }
        | some (b3, c3) =>
          let sustainablePrice := fairValue
          let totalRemainingValue := b3 * sustainablePrice + c3
          let yearsOfRunway := totalRemainingValue / annualWithdrawal
          { passes := decide (yearsOfRunway ≥ 20), remainingBitcoin := some b3,
            remainingCash := some c3 }

/-- One cash-first stress-withdrawal year, written from the claim wording:
deduct the withdrawal from cash if cash covers it, otherwise zero the cash
and sell the shortfall in bitcoin at the year's price, failing if bitcoin
goes negative. -/
def bearStressStep (price annualWithdrawal : ℚ) (state : ℚ × ℚ) : Option (ℚ × ℚ) :=
  if state.2 ≥ annualWithdrawal then some (state.1, state.2 - annualWithdrawal)
  else
    let sold := (annualWithdrawal - state.2) / price
    if state.1 - sold < 0 then none else some (state.1 - sold, 0)

/-- The survival test as the claim describes it: three cash-first years
anchored at the given year's power-law values (floor, floor again, then the
recovery price), followed by the 20-year runway check at fair value. -/
def bearSurvivalSpec (fairValue floorValue bitcoinHoldings annualWithdrawal cashHoldings : ℚ) :
    BearTestResult :=
  let recoveryPrice := floorValue + (fairValue - floorValue) * 0.75
  match bearStressStep floorValue annualWithdrawal (bitcoinHoldings, cashHoldings) with
  | none => { passes := false, remainingBitcoin := none, remainingCash := none }
  | some s1 =>
    match bearStressStep floorValue annualWithdrawal s1 with
    | none => { passes := false, remainingBitcoin := none, remainingCash := none }
    | some s2 =>
      match bearStressStep recoveryPrice annualWithdrawal s2 with
      | none => { passes := false, remainingBitcoin := none, remainingCash := none }
      | some s3 =>
        { passes := decide ((s3.1 * fairValue + s3.2) / annualWithdrawal ≥ 20)
          remainingBitcoin := some s3.1
          remainingCash := some s3.2 }

end Part004

theorem bearStressStep_eq (price w b c : ℚ) :
    Part004.bearStressStep price w (b, c) =
      if c ≥ w then some (b, c - w)
      else if b - (w - c) / price < 0 then none else some (b - (w - c) / price, 0) := rfl

/-- C1: for every `bitcoinHoldings > 0`, `annualWithdrawal > 0` and
`cashHoldings ≥ 0`, the three-year survival test of `src/unnamed/part_004`
is exactly the claim's stress sequence: three cash-first withdrawal years at
the anchored power-law prices (floor, floor, then
`floor + (fair − floor) × 0.75`), failing immediately if bitcoin goes
negative, and otherwise returning
`passes = ((remainingBitcoin × fair + remainingCash) / annualWithdrawal ≥ 20)`
together with the post-stress balances. -/
theorem bearMarketSurvival_matches_spec (fairValue floorValue b w c : ℚ)
    (hb : 0 < b) (hw : 0 < w) (hc : 0 ≤ c) :
    Part004.testBearMarketSurvival fairValue floorValue b w c =
      Part004.bearSurvivalSpec fairValue floorValue b w c := by
  unfold Part004.testBearMarketSurvival Part004.bearSurvivalSpec
  rw [if_neg (by push_neg; exact ⟨by linarith, by linarith⟩), max_eq_right hc]
  dsimp only
  simp only [← bearStressStep_eq]
  rcases h1 : Part004.bearStressStep floorValue w (b, c) with _ | ⟨b1, c1⟩
  · rfl
  · dsimp only
    rcases h2 : Part004.bearStressStep floorValue w (b1, c1) with _ | ⟨b2, c2⟩
    · rfl
    · dsimp only
      rcases h3 : Part004.bearStressStep (floorValue + (fairValue - floorValue) * 0.75) w
          (b2, c2) with _ | ⟨b3, c3⟩
      · rfl
      · dsimp only

/-- Witness for C1 at fair value 100, floor 42, 10 bitcoin, withdrawal 1,
no cash. -/
theorem bearMarketSurvival_matches_spec_witness :
    Part004.testBearMarketSurvival 100 42 10 1 0 =
      Part004.bearSurvivalSpec 100 42 10 1 0 :=
  bearMarketSurvival_matches_spec 100 42 10 1 0 (by norm_num) (by norm_num) (by norm_num)

namespace Part004

/-- The inline cycle price-and-phase rule of the withdrawal loop in
`simulate50YearWithdrawals` (`src/unnamed/part_004`, lines 663–696): loop
years 0 and 1 at the floor, year 2 at the recovery price, and from year 3 on
the repeating 4-year pattern keyed on `(year - 3) % 4`.  `fvYear` is the
power-law fair value at January 1 of a calendar year. -/
def withdrawalCyclePricePhase (fvYear : ℤ → ℚ) (retirementStartYear : ℤ) (year : ℕ) :
    ℚ × String :=
  let currentSimulationYear := retirementStartYear + year
  let fairValue := fvYear currentSimulationYear
  let floorValue := fairValue * 0.42
  let upperBound := fairValue * 2.0
  if year = 0 ∨ year = 1 then
    (floorValue,
      if year = 0 then "Retirement Start (Deep Bear - Year 1)" else "Deep Bear (Floor) - Year 2")
  else if year = 2 then
    (floorValue + (fairValue - floorValue) * 0.75, "Bear Market Recovery")
  else
    let cycleYear := (year - 3) % 4
    if cycleYear = 0 then (floorValue, "Deep Bear (Floor)")
    else if cycleYear = 1 then
      (floorValue + (fairValue - floorValue) * 0.75, "Bear Market Recovery")
    else if cycleYear = 2 then
      (fairValue + (upperBound - fairValue) * 0.7, "Bull Market")
    else if cycleYear = 3 then
      (fairValue + (upperBound - fairValue) * 0.3, "Bull Peak & Correction")
    else (fairValue, "Fair Value")

/-- `getChartPlanPriceForYear` from `src/unnamed/part_004` (lines 853–870):
the absolute-calendar-year entry point of the plan price line.  Returns
`none` (`null`) before the retirement start year, and otherwise the offset
rule.  The branch computing `(offset - 3) % 4` is only reached with
`offset ≥ 3`, where the JavaScript `%` agrees with `Int.emod`. -/
def getChartPlanPriceForYear (fvYear : ℤ → ℚ) (chartRetirementStartYear year : ℤ) :
    Option ℚ :=
  if year < chartRetirementStartYear then none
  else
    let fairValue := fvYear year
    let floorValue := fairValue * 0.42
    let upperBound := fairValue * 2.0
    let offset := year - chartRetirementStartYear
    if offset = 0 ∨ offset = 1 then some floorValue
    else if offset = 2 then some (floorValue + (fairValue - floorValue) * 0.75)
    else
      let cycleYear := (offset - 3) % 4
      if cycleYear = 0 then some floorValue
      else if cycleYear = 1 then some (floorValue + (fairValue - floorValue) * 0.75)
      else if cycleYear = 2 then some (fairValue + (upperBound - fairValue) * 0.7)
      else if cycleYear = 3 then some (fairValue + (upperBound - fairValue) * 0.3)
      else some fairValue

end Part004

/-- C5: for every anchor year and every natural offset `k`, the
absolute-year entry point at calendar year `anchorYear + k` returns exactly
the offset rule's price for offset `k` (years 0 and 1 at floor, year 2 at
the recovery price, and the `(k − 3) mod 4` pattern from offset 3 on), and
it returns `null` for every calendar year strictly before the anchor. -/
theorem chartPlanPrice_offset_consistency (fvYear : ℤ → ℚ) (anchorYear : ℤ) (k : ℕ) :
    Part004.getChartPlanPriceForYear fvYear anchorYear (anchorYear + k) =
      some (Part004.withdrawalCyclePricePhase fvYear anchorYear k).1 ∧
    ∀ year : ℤ, year < anchorYear →
      Part004.getChartPlanPriceForYear fvYear anchorYear year = none := by
  constructor
  · unfold Part004.getChartPlanPriceForYear Part004.withdrawalCyclePricePhase
    rw [if_neg (by omega)]
    have hoff : anchorYear + (k : ℤ) - anchorYear = (k : ℤ) := by ring
    dsimp only
    rw [hoff]
    rcases Nat.lt_or_ge k 3 with hk | hk
    · interval_cases k <;> norm_num
    · rw [if_neg (show ¬((k : ℤ) = 0 ∨ (k : ℤ) = 1) by omega),
          if_neg (show ¬((k : ℤ) = 2) by omega),
          if_neg (show ¬(k = 0 ∨ k = 1) by omega),
          if_neg (show ¬(k = 2) by omega)]
      have hcast : ((k : ℤ) - 3) % 4 = ((k - 3) % 4 : ℕ) := by omega
      rw [hcast]
      have hm : (k - 3) % 4 = 0 ∨ (k - 3) % 4 = 1 ∨ (k - 3) % 4 = 2 ∨ (k - 3) % 4 = 3 := by
        omega
      rcases hm with hm | hm | hm | hm <;> rw [hm] <;> norm_num
  · intro year hy
    unfold Part004.getChartPlanPriceForYear
    rw [if_pos hy]

/-- Witness for C5 at a constant fair-value function, anchor 2025, offset 5,
and the pre-anchor year 2024. -/
theorem chartPlanPrice_offset_consistency_witness :
    Part004.getChartPlanPriceForYear (fun _ => 100) 2025 (2025 + (5 : ℕ)) =
      some ((Part004.withdrawalCyclePricePhase (fun _ => 100) 2025 5).1) ∧
    Part004.getChartPlanPriceForYear (fun _ => 100) 2025 2024 = none :=
  ⟨(chartPlanPrice_offset_consistency (fun _ => 100) 2025 5).1,
   (chartPlanPrice_offset_consistency (fun _ => 100) 2025 5).2 2024 (by norm_num)⟩

namespace Part004

/-- The body of the monthly loop of the local `calculateMonthlySavingsProjection`
in `src/unnamed/part_004` (lines 202–281): cycle-aware monthly purchases,
keyed on the calendar year's `(actualYear - 1) % 4` (JavaScript truncated
remainder) — note this variant flags bear years without excluding year 0.
`fvMonth y m` is the power-law fair value at the projection date of month
`m` of loop year `y`; floor and upper bound are the `PowerLaw.ts`
multiples of it. -/
def savingsStep (fvMonth : ℕ → ℕ → ℚ) (startYear : ℤ)
    (monthlySavingsAmount : ℚ) (doubleDownInBearMarkets : Bool)
    (acc : ℚ × ℚ) (ym : ℕ × ℕ) : RetirementCalculations.SavingsProjectionRow × (ℚ × ℚ) :=
  let year := ym.1
  let month := ym.2
  let actualYear := startYear + year
  let cycleYear := Int.tmod (actualYear - 1) 4
  let isBearMarketYear : Bool := decide (cycleYear = 0) || decide (cycleYear = 1)
  let bitcoinFairValue := fvMonth year month
  let floorValue := bitcoinFairValue * 0.42
  let upperBound := bitcoinFairValue * 2.0
  let bitcoinCyclePrice :=
    if year = 0 then bitcoinFairValue
    else if cycleYear = 0 then floorValue
    else if cycleYear = 1 then floorValue + (bitcoinFairValue - floorValue) * 0.75
    else if cycleYear = 2 then bitcoinFairValue + (upperBound - bitcoinFairValue) * 0.7
    else if cycleYear = 3 then bitcoinFairValue + (upperBound - bitcoinFairValue) * 0.3
    else bitcoinFairValue
  let actualMonthlySavings :=
    if doubleDownInBearMarkets && isBearMarketYear then monthlySavingsAmount * 2
    else monthlySavingsAmount
  let bitcoinPurchased := actualMonthlySavings / bitcoinCyclePrice
  let tb := acc.1 + bitcoinPurchased
  let tc := acc.2 + actualMonthlySavings
  ({ year := year + 1, month := month + 1
     monthlySavingsAmount := actualMonthlySavings
     bitcoinFairValue := bitcoinFairValue
     bitcoinCyclePrice := bitcoinCyclePrice
     bitcoinPurchased := bitcoinPurchased
     totalBitcoinAccumulated := tb
     totalCashInvested := tc }, (tb, tc))

/-- The local `calculateMonthlySavingsProjection` of `src/unnamed/part_004`
(lines 189–285), including its entry guard: disabled savings, a non-positive
monthly amount or a zero horizon yield the empty projection. -/
def calculateMonthlySavingsProjection (fvMonth : ℕ → ℕ → ℚ) (startYear : ℤ)
    (enabled : Bool) (monthlySavingsAmount : ℚ) (yearsToRetirement : ℕ)
    (doubleDownInBearMarkets : Bool) : List RetirementCalculations.SavingsProjectionRow :=
  if enabled = false ∨ monthlySavingsAmount ≤ 0 ∨ yearsToRetirement = 0 then []
  else
    (mapAccumL (savingsStep fvMonth startYear monthlySavingsAmount doubleDownInBearMarkets)
      (0, 0) (RetirementCalculations.monthIndices yearsToRetirement)).1

/-- `RetirementInputs` component state of `src/unnamed/part_004`. -/
structure RetirementInputs where
  bitcoinAmount : ℚ
  annualWithdrawal : ℚ
  cashAmount : ℚ
  yearsUntilRetirement : ℕ

/-- `MonthlySavingsInputs` component state of `src/unnamed/part_004`. -/
structure MonthlySavingsInputs where
  enabled : Bool
  monthlySavingsAmount : ℚ
  yearsToRetirement : ℕ
  doubleDownInBearMarkets : Bool

/-- One row pushed onto `simulation` by `simulate50YearWithdrawals`.  The
`withdrawalSource` label keeps the constant parts of the source's
interpolated text (strategy tag, `(DEPLETED)` marker, the year-0 prefix). -/
structure SimulationRow where
  year : ℤ
  yearNumber : ℕ
  phase : String
  bitcoinPrice : ℚ
  fairValue : ℚ
  priceToFairRatio : ℚ
  cyclePhase : String
  annualWithdrawal : ℚ
  withdrawalSource : String
  cashUsed : ℚ
  bitcoinSold : ℚ
  bitcoinPurchased : ℚ
  remainingCash : ℚ
  remainingBitcoin : ℚ
  remainingBitcoinValue : ℚ
  totalRemainingValue : ℚ
  totalCashInvested : ℚ
deriving DecidableEq

/-- One year of the accumulation phase of `simulate50YearWithdrawals`
(`src/unnamed/part_004`, lines 537–624).  The JavaScript `yearlyAggregation`
hashmap is modelled by filtering the ordered projection for the months of
the given loop year (`monthData.year = year + 1`); its `endingBitcoin` is
the last assignment, i.e. the last month of that year.  Years with no
projection months push no row (`if (yearData)`). -/
def accumulationStep (fvYear : ℤ → ℚ) (currentYear : ℤ)
    (bitcoinAmount cashAmount : ℚ) (doubleDownInBearMarkets : Bool)
    (proj : List RetirementCalculations.SavingsProjectionRow)
    (cum : ℚ) (year : ℕ) : Option SimulationRow × ℚ :=
  let simulationYear := currentYear + year
  let bitcoinFairValue := fvYear simulationYear
  let months := proj.filter (fun m => m.year = year + 1)
  match months.getLast? with
  | none => (none, cum)
  | some lastMonth =>
    let bitcoinPurchased := (months.map (·.bitcoinPurchased)).sum
    let cashInvested := (months.map (·.monthlySavingsAmount)).sum
    let endingBitcoin := bitcoinAmount + lastMonth.totalBitcoinAccumulated
    let cum2 := cum + cashInvested
    let cycleYear := Int.tmod (simulationYear - 1) 4
    let isBearMarketYear : Bool := decide (cycleYear = 0) || decide (cycleYear = 1)
    let floorValue := bitcoinFairValue * 0.42
    let upperBound := bitcoinFairValue * 2.0
    let cyclePricePhase : ℚ × String :=
      if year = 0 then (bitcoinFairValue, "Current Year (Fair Value)")
      else if cycleYear = 0 then (floorValue, "Deep Bear (Floor)")
      else if cycleYear = 1 then
        (floorValue + (bitcoinFairValue - floorValue) * 0.75, "Bear Market Recovery")
      else if cycleYear = 2 then
        (bitcoinFairValue + (upperBound - bitcoinFairValue) * 0.7, "Bull Market")
      else if cycleYear = 3 then
        (bitcoinFairValue + (upperBound - bitcoinFairValue) * 0.3, "Bull Peak & Correction")
      else (bitcoinFairValue, "Fair Value")
    (some { year := simulationYear, yearNumber := year + 1, phase := "ACCUMULATION"
            bitcoinPrice := cyclePricePhase.1, fairValue := bitcoinFairValue
            priceToFairRatio := cyclePricePhase.1 / bitcoinFairValue
            cyclePhase := cyclePricePhase.2, annualWithdrawal := 0
            withdrawalSource :=
              if doubleDownInBearMarkets && isBearMarketYear then
                "Investing (2x Bear Market!)"
              else "Investing"
            cashUsed := 0, bitcoinSold := 0, bitcoinPurchased := bitcoinPurchased
            remainingCash := cashAmount, remainingBitcoin := endingBitcoin
            remainingBitcoinValue := endingBitcoin * cyclePricePhase.1
            totalRemainingValue := endingBitcoin * cyclePricePhase.1 + cashAmount
            totalCashInvested := cum2 }, cum2)

/-- The withdrawal loop of `simulate50YearWithdrawals` (`src/unnamed/part_004`,
lines 645–767), with the loop bound `year < 50` carried as structural fuel.
Each year prices the cycle, asks `SmartWithdrawalStrategy` for the split,
updates the balances (clamping negative bitcoin to zero and tagging the
label `(DEPLETED)`), pushes the row, and stops as soon as both balances are
at or below zero. -/
def withdrawalLoop (fvYear : ℤ → ℚ) (retirementStartYear : ℤ)
    (baseAnnualWithdrawal : ℚ) (yearsToRetirement : ℕ)
    (cumulativeCashInvested : ℚ) :
    ℕ → ℕ → ℚ → ℚ → List SimulationRow
  | 0, _, _, _ => []
  | fuel + 1, year, remainingBitcoin, remainingCash =>
    let currentSimulationYear := retirementStartYear + year
    let annualWithdrawal := baseAnnualWithdrawal
    let fairValue := fvYear currentSimulationYear
    let pp := withdrawalCyclePricePhase fvYear retirementStartYear year
    let bitcoinPrice := pp.1
    let priceToFairRatio := bitcoinPrice / fairValue
    let decision := SmartWithdrawalStrategy.calculateWithdrawal
      { currentBitcoinPrice := bitcoinPrice, fairValue := fairValue
        availableCash := remainingCash, availableBitcoin := remainingBitcoin
        withdrawalNeeded := annualWithdrawal, emergencyMode := false }
    let cashUsed := decision.useCashAmount
    let bitcoinSold := decision.useBitcoinAmount
    let rc := remainingCash - cashUsed
    let rb0 := remainingBitcoin - bitcoinSold
    let rb := if rb0 < 0 then 0 else rb0
    let src1 := if rb0 < 0 then decision.strategy ++ " (DEPLETED)" else decision.strategy
    let withdrawalSource := if year = 0 then "Retirement Start - " ++ src1 else src1
    let row : SimulationRow :=
      { year := currentSimulationYear, yearNumber := yearsToRetirement + year + 1
        phase := if year = 0 then "RETIREMENT START" else "WITHDRAWAL"
        bitcoinPrice := bitcoinPrice, fairValue := fairValue
        priceToFairRatio := priceToFairRatio, cyclePhase := pp.2
        annualWithdrawal := annualWithdrawal, withdrawalSource := withdrawalSource
        cashUsed := cashUsed, bitcoinSold := bitcoinSold, bitcoinPurchased := 0
        remainingCash := rc, remainingBitcoin := rb
        remainingBitcoinValue := rb * bitcoinPrice
        totalRemainingValue := rb * bitcoinPrice + rc
        totalCashInvested := cumulativeCashInvested }
    row :: (if rb ≤ 0 ∧ rc ≤ 0 then []
            else withdrawalLoop fvYear retirementStartYear baseAnnualWithdrawal
              yearsToRetirement cumulativeCashInvested fuel (year + 1) rb rc)

/-- `simulate50YearWithdrawals` from `src/unnamed/part_004` (lines 496–770):
the entry guard, the optional accumulation phase aggregated from the local
monthly projection, and up to 50 withdrawal years (this variant withdraws
already in year 0, the retirement-start row). -/
def simulate50YearWithdrawals (fvYear : ℤ → ℚ) (fvMonth : ℕ → ℕ → ℚ)
    (currentYear : ℤ) (currentPrice : ℚ) (ri : RetirementInputs)
    (msi : MonthlySavingsInputs) : List SimulationRow :=
  if currentPrice = 0 ∨
      ¬(0 < ri.bitcoinAmount ∨ (msi.enabled = true ∧ 0 < msi.monthlySavingsAmount)) ∨
      ri.annualWithdrawal ≤ 0 then []
  else
    let yearsToRetirement := if msi.enabled then msi.yearsToRetirement else 0
    let retirementStartYear :=
      currentYear + (max ri.yearsUntilRetirement yearsToRetirement : ℕ)
    let savingsProjection := calculateMonthlySavingsProjection fvMonth currentYear
      msi.enabled msi.monthlySavingsAmount msi.yearsToRetirement
      msi.doubleDownInBearMarkets
    let projectedBitcoin :=
      if msi.enabled = true ∧ savingsProjection ≠ [] then
        ((savingsProjection.getLast?).map
          RetirementCalculations.SavingsProjectionRow.totalBitcoinAccumulated).getD 0
      else 0
    let totalCashInvested :=
      if msi.enabled = true ∧ savingsProjection ≠ [] then
        ((savingsProjection.getLast?).map
          RetirementCalculations.SavingsProjectionRow.totalCashInvested).getD 0
      else 0
    let accumulatedBitcoin := ri.bitcoinAmount + projectedBitcoin
    let accPair :=
      if msi.enabled = true ∧ yearsToRetirement ≠ 0 then
        mapAccumL
          (accumulationStep fvYear currentYear ri.bitcoinAmount ri.cashAmount
            msi.doubleDownInBearMarkets savingsProjection)
          0 (List.range yearsToRetirement)
      else ([], 0)
    let accRows := accPair.1.reduceOption
    let cumulativeCashInvested := if accPair.2 = 0 then totalCashInvested else accPair.2
    accRows ++ withdrawalLoop fvYear retirementStartYear ri.annualWithdrawal
      yearsToRetirement cumulativeCashInvested 50 0 accumulatedBitcoin ri.cashAmount

end Part004

/-- Fold invariant for `mapAccumL`: if each step sends an invariant state to
an output satisfying `P` and an invariant state, every collected output
satisfies `P`. -/
theorem mapAccumL_forall_state {α σ β : Type} (f : σ → α → β × σ)
    (Inv : σ → Prop) (P : β → Prop)
    (hstep : ∀ s a, Inv s → P (f s a).1 ∧ Inv (f s a).2) :
    ∀ (lst : List α) (s : σ), Inv s → ∀ b ∈ (mapAccumL f s lst).1, P b := by
  intro lst
  induction lst with
  | nil => intro s _ b hb; cases hb
  | cons a as ih =>
    intro s hs b hb
    rw [mapAccumL] at hb
    rcases List.mem_cons.mp hb with rfl | hb
    · exact (hstep s a hs).1
    · exact ih (f s a).2 (hstep s a hs).2 b hb

theorem part004_withdrawalCyclePrice_pos (fvYear : ℤ → ℚ) (startYear : ℤ) (year : ℕ)
    (hf : ∀ y, 0 < fvYear y) :
    0 < (Part004.withdrawalCyclePricePhase fvYear startYear year).1 := by
  unfold Part004.withdrawalCyclePricePhase
  dsimp only
  split_ifs <;> dsimp only <;> nlinarith [hf (startYear + (year : ℤ))]

theorem part004_savingsStep_nonneg (fvMonth : ℕ → ℕ → ℚ) (startYear : ℤ)
    (msa : ℚ) (dd : Bool) (hm : 0 ≤ msa) (hfm : ∀ y m, 0 < fvMonth y m)
    (acc : ℚ × ℚ) (ym : ℕ × ℕ) (hacc : 0 ≤ acc.1) :
    (0 ≤ (Part004.savingsStep fvMonth startYear msa dd acc ym).1.totalBitcoinAccumulated) ∧
    0 ≤ (Part004.savingsStep fvMonth startYear msa dd acc ym).2.1 := by
  unfold Part004.savingsStep
  dsimp only
  constructor <;>
  · refine add_nonneg hacc (div_nonneg ?_ ?_) <;>
    · split_ifs <;> nlinarith [hfm ym.1 ym.2]

/-- Every row of the `part_004` monthly projection carries a nonnegative
running bitcoin total, provided the fair values are positive. -/
theorem part004_projection_tb_nonneg (fvMonth : ℕ → ℕ → ℚ) (startYear : ℤ)
    (enabled : Bool) (msa : ℚ) (ytr : ℕ) (dd : Bool)
    (hfm : ∀ y m, 0 < fvMonth y m) :
    ∀ row ∈ Part004.calculateMonthlySavingsProjection fvMonth startYear enabled msa ytr dd,
      0 ≤ row.totalBitcoinAccumulated := by
  unfold Part004.calculateMonthlySavingsProjection
  split_ifs with hguard
  · intro row hrow
    cases hrow
  · push_neg at hguard
    intro row hrow
    refine mapAccumL_forall_state _ (fun s => 0 ≤ s.1)
      (fun r => 0 ≤ r.totalBitcoinAccumulated) ?_ _ (0, 0) le_rfl row hrow
    intro s a hs
    exact part004_savingsStep_nonneg fvMonth startYear msa dd
      (by simpa using hguard.2.1.le) hfm s a hs

/-- The withdrawal loop keeps both balances nonnegative and emits at most
`fuel` rows. -/
theorem part004_withdrawalLoop_nonneg (fvYear : ℤ → ℚ) (start : ℤ) (w : ℚ)
    (ytr : ℕ) (cum : ℚ) (hw : 0 < w) (hf : ∀ y, 0 < fvYear y) :
    ∀ (fuel year : ℕ) (b c : ℚ), 0 ≤ b → 0 ≤ c →
      (∀ row ∈ Part004.withdrawalLoop fvYear start w ytr cum fuel year b c,
        0 ≤ row.remainingBitcoin ∧ 0 ≤ row.remainingCash) ∧
      (Part004.withdrawalLoop fvYear start w ytr cum fuel year b c).length ≤ fuel := by
  intro fuel
  induction fuel with
  | zero =>
    intro year b c hb hc
    refine ⟨?_, ?_⟩ <;> simp [Part004.withdrawalLoop]
  | succ n ih =>
    intro year b c hb hc
    have hprice := part004_withdrawalCyclePrice_pos fvYear start year hf
    have hspec := SmartWithdrawalStrategy.calculateWithdrawal_spec
      ⟨(Part004.withdrawalCyclePricePhase fvYear start year).1, fvYear (start + year),
        c, b, w, false⟩ hc hb hprice hw.le
    rw [Part004.withdrawalLoop]
    set d := SmartWithdrawalStrategy.calculateWithdrawal
      ⟨(Part004.withdrawalCyclePricePhase fvYear start year).1, fvYear (start + year),
        c, b, w, false⟩ with hd
    set rb := if b - d.useBitcoinAmount < 0 then (0 : ℚ) else b - d.useBitcoinAmount
      with hrb_def
    set rc := c - d.useCashAmount with hrc_def
    have hrc : 0 ≤ rc := by
      rw [hrc_def]
      have h2 := hspec.2.1
      dsimp only at h2
      linarith
    have hrb : 0 ≤ rb := by
      rw [hrb_def]
      split_ifs with h
      · exact le_refl 0
      · linarith [not_lt.mp h]
    constructor
    · intro row hrow
      rcases List.mem_cons.mp hrow with rfl | hrow
      · exact ⟨hrb, hrc⟩
      · revert hrow
        split_ifs with hstop
        · intro hrow
          cases hrow
        · intro hrow
          exact ((ih (year + 1) rb rc hrb hrc).1) row hrow
    · rw [List.length_cons]
      split_ifs with hstop
      · simp
      · have := (ih (year + 1) rb rc hrb hrc).2
        omega

/-- If a withdrawal-loop row is followed by another row, its balances were
not yet both depleted (the loop stops as soon as both reach zero). -/
theorem part004_withdrawalLoop_stops (fvYear : ℤ → ℚ) (start : ℤ) (w : ℚ)
    (ytr : ℕ) (cum : ℚ) :
    ∀ (fuel year : ℕ) (b c : ℚ) (i : ℕ) (row next : Part004.SimulationRow),
      (Part004.withdrawalLoop fvYear start w ytr cum fuel year b c).get? i = some row →
      (Part004.withdrawalLoop fvYear start w ytr cum fuel year b c).get? (i + 1) =
        some next →
      ¬(row.remainingBitcoin ≤ 0 ∧ row.remainingCash ≤ 0) := by
  intro fuel
  induction fuel with
  | zero =>
    intro year b c i row next h1 h2
    simp [Part004.withdrawalLoop] at h1
  | succ n ih =>
    intro year b c i row next h1 h2
    rw [Part004.withdrawalLoop] at h1 h2
    set d := SmartWithdrawalStrategy.calculateWithdrawal
      ⟨(Part004.withdrawalCyclePricePhase fvYear start year).1, fvYear (start + year),
        c, b, w, false⟩ with hd
    set rb := if b - d.useBitcoinAmount < 0 then (0 : ℚ) else b - d.useBitcoinAmount
      with hrb_def
    set rc := c - d.useCashAmount with hrc_def
    match i with
    | 0 =>
      rw [List.get?_cons_zero] at h1
      rw [List.get?_cons_succ] at h2
      injection h1 with h1
      subst h1
      by_cases hstop : rb ≤ 0 ∧ rc ≤ 0
      · rw [if_pos hstop] at h2
        simp at h2
      · intro hcontra
        exact hstop ⟨hcontra.1, hcontra.2⟩
    | i + 1 =>
      rw [List.get?_cons_succ] at h1 h2
      by_cases hstop : rb ≤ 0 ∧ rc ≤ 0
      · rw [if_pos hstop] at h1
        simp at h1
      · rw [if_neg hstop] at h1 h2
        exact ih (year + 1) rb rc i row next h1 h2

theorem mapAccumL_length {α σ β : Type} (f : σ → α → β × σ) :
    ∀ (lst : List α) (s : σ), (mapAccumL f s lst).1.length = lst.length := by
  intro lst
  induction lst with
  | nil => intro s; rfl
  | cons a as ih =>
    intro s
    rw [mapAccumL]
    dsimp only
    rw [List.length_cons, List.length_cons, ih]

/-- Every accumulation row carries the `ACCUMULATION` phase label, the
caller's (nonnegative) cash, and a nonnegative ending bitcoin balance. -/
theorem part004_accumulationRow_fact (fvYear : ℤ → ℚ) (currentYear : ℤ)
    (bA cA : ℚ) (dd : Bool) (proj : List RetirementCalculations.SavingsProjectionRow)
    (hbA : 0 ≤ bA) (hcA : 0 ≤ cA)
    (hproj : ∀ row ∈ proj, 0 ≤ row.totalBitcoinAccumulated) :
    ∀ (years : ℕ) (cum : ℚ),
      ∀ orow ∈ (mapAccumL (Part004.accumulationStep fvYear currentYear bA cA dd proj)
          cum (List.range years)).1,
        ∀ r, orow = some r →
          r.phase = "ACCUMULATION" ∧ 0 ≤ r.remainingBitcoin ∧ 0 ≤ r.remainingCash := by
  intro years cum orow horow
  refine mapAccumL_forall_state _ (fun _ => True)
    (fun b => ∀ r, b = some r →
      r.phase = "ACCUMULATION" ∧ 0 ≤ r.remainingBitcoin ∧ 0 ≤ r.remainingCash)
    ?_ _ _ trivial orow horow
  intro s a _
  refine ⟨?_, trivial⟩
  intro r hr
  unfold Part004.accumulationStep at hr
  dsimp only at hr
  rcases hlast : (proj.filter (fun m => m.year = a + 1)).getLast? with _ | lastMonth
  · rw [hlast] at hr
    simp at hr
  · rw [hlast] at hr
    dsimp only at hr
    injection hr with hr
    subst hr
    refine ⟨rfl, ?_, hcA⟩
    have hmem : lastMonth ∈ proj := by
      rcases List.mem_getLast?_eq_getLast (l := proj.filter (fun m => m.year = a + 1))
        (x := lastMonth) hlast with ⟨hne, heq⟩
      exact List.mem_of_mem_filter (heq ▸ List.getLast_mem hne)
    exact add_nonneg hbA (hproj lastMonth hmem)

/-- Ledger invariants for an accumulation prefix followed by a bounded
withdrawal suffix. -/
theorem ledger_parts_invariants (accRows wrows : List Part004.SimulationRow) (A : ℕ)
    (hacc : ∀ row ∈ accRows,
      row.phase = "ACCUMULATION" ∧ 0 ≤ row.remainingBitcoin ∧ 0 ≤ row.remainingCash)
    (hwmem : ∀ row ∈ wrows, 0 ≤ row.remainingBitcoin ∧ 0 ≤ row.remainingCash)
    (halen : accRows.length ≤ A) (hwlen : wrows.length ≤ 50)
    (hstops : ∀ (i : ℕ) (row next : Part004.SimulationRow),
      wrows.get? i = some row → wrows.get? (i + 1) = some next →
      ¬(row.remainingBitcoin ≤ 0 ∧ row.remainingCash ≤ 0)) :
    (∀ row ∈ accRows ++ wrows, 0 ≤ row.remainingBitcoin ∧ 0 ≤ row.remainingCash) ∧
    (accRows ++ wrows).length ≤ A + 50 ∧
    (∀ (i : ℕ) (row next : Part004.SimulationRow),
      (accRows ++ wrows).get? i = some row →
      (accRows ++ wrows).get? (i + 1) = some next →
      row.phase ≠ "ACCUMULATION" →
      ¬(row.remainingBitcoin ≤ 0 ∧ row.remainingCash ≤ 0)) := by
  refine ⟨?_, ?_, ?_⟩
  · intro row hrow
    rcases List.mem_append.mp hrow with hrow | hrow
    · exact (hacc row hrow).2
    · exact hwmem row hrow
  · rw [List.length_append]
    omega
  · intro i row next h1 h2 hphase
    rcases Nat.lt_or_ge i accRows.length with hi | hi
    · rw [List.get?_append hi] at h1
      exact absurd (hacc row (List.get?_mem h1)).1 hphase
    · rw [List.get?_append_right hi] at h1
      rw [List.get?_append_right (by omega)] at h2
      have hnext : i + 1 - accRows.length = (i - accRows.length) + 1 := by omega
      rw [hnext] at h2
      exact hstops (i - accRows.length) row next h1 h2

/-- C7: for every (validated) input to the `part_004` 50-year lifecycle
simulation — nonnegative starting bitcoin and cash, positive power-law fair
values — every row of the returned ledger keeps remaining bitcoin and
remaining cash at or above `-1e-6` (negative bitcoin is clamped to zero
inside the loop), the ledger holds at most 50 withdrawal rows beyond the
accumulation rows, and the withdrawal loop stops as soon as both balances
reach zero: a non-accumulation row followed by another row is never already
fully depleted. -/
theorem simulate50_ledger_invariants (fvYear : ℤ → ℚ) (fvMonth : ℕ → ℕ → ℚ)
    (currentYear : ℤ) (currentPrice : ℚ) (ri : Part004.RetirementInputs)
    (msi : Part004.MonthlySavingsInputs)
    (hb : 0 ≤ ri.bitcoinAmount) (hc : 0 ≤ ri.cashAmount)
    (hfy : ∀ y, 0 < fvYear y) (hfm : ∀ y m, 0 < fvMonth y m) :
    (∀ row ∈ Part004.simulate50YearWithdrawals fvYear fvMonth currentYear currentPrice ri msi,
      (-1e-6 : ℚ) ≤ row.remainingBitcoin ∧ (-1e-6 : ℚ) ≤ row.remainingCash) ∧
    (Part004.simulate50YearWithdrawals fvYear fvMonth currentYear currentPrice ri msi).length ≤
      (if msi.enabled then msi.yearsToRetirement else 0) + 50 ∧
    (∀ (i : ℕ) (row next : Part004.SimulationRow),
      (Part004.simulate50YearWithdrawals fvYear fvMonth currentYear currentPrice ri
        msi).get? i = some row →
      (Part004.simulate50YearWithdrawals fvYear fvMonth currentYear currentPrice ri
        msi).get? (i + 1) = some next →
      row.phase ≠ "ACCUMULATION" →
      ¬(row.remainingBitcoin ≤ 0 ∧ row.remainingCash ≤ 0)) := by
  unfold Part004.simulate50YearWithdrawals
  by_cases hg : currentPrice = 0 ∨
      ¬(0 < ri.bitcoinAmount ∨ (msi.enabled = true ∧ 0 < msi.monthlySavingsAmount)) ∨
      ri.annualWithdrawal ≤ 0
  · rw [if_pos hg]
    refine ⟨?_, ?_, ?_⟩
    · intro row hrow
      cases hrow
    · simp
    · intro i row next h1 h2 _
      simp at h1
  · rw [if_neg hg]
    push_neg at hg
    dsimp only
    set Y := if msi.enabled = true then msi.yearsToRetirement else 0 with hY_def
    set S := currentYear + ((max ri.yearsUntilRetirement Y : ℕ) : ℤ) with hS_def
    set proj := Part004.calculateMonthlySavingsProjection fvMonth currentYear msi.enabled
      msi.monthlySavingsAmount msi.yearsToRetirement msi.doubleDownInBearMarkets
      with hproj_def
    set PB := if msi.enabled = true ∧ proj ≠ [] then
        (Option.map RetirementCalculations.SavingsProjectionRow.totalBitcoinAccumulated
          proj.getLast?).getD 0
      else 0 with hPB_def
    set TCI := if msi.enabled = true ∧ proj ≠ [] then
        (Option.map RetirementCalculations.SavingsProjectionRow.totalCashInvested
          proj.getLast?).getD 0
      else 0 with hTCI_def
    set B := ri.bitcoinAmount + PB with hB_def
    set AP := if msi.enabled = true ∧ Y ≠ 0 then
        mapAccumL
          (Part004.accumulationStep fvYear currentYear ri.bitcoinAmount ri.cashAmount
            msi.doubleDownInBearMarkets proj)
          0 (List.range Y)
      else ([], 0) with hAP_def
    set AR := AP.1.reduceOption with hAR_def
    set CUM := if AP.2 = 0 then TCI else AP.2 with hCUM_def
    set WR := Part004.withdrawalLoop fvYear S ri.annualWithdrawal Y CUM 50 0 B
      ri.cashAmount with hWR_def
    have hw : 0 < ri.annualWithdrawal := hg.2.2
    have hprojfact : ∀ row ∈ proj, 0 ≤ row.totalBitcoinAccumulated := by
      rw [hproj_def]
      exact part004_projection_tb_nonneg fvMonth currentYear msi.enabled
        msi.monthlySavingsAmount msi.yearsToRetirement msi.doubleDownInBearMarkets hfm
    have hpb : 0 ≤ PB := by
      rw [hPB_def]
      split_ifs with h
      · rcases hl : proj.getLast? with _ | last
        · simp
        · rcases List.mem_getLast?_eq_getLast (l := proj) (x := last) hl with ⟨hne, heq⟩
          have hlm : last ∈ proj := heq ▸ List.getLast_mem hne
          simpa using hprojfact last hlm
      · exact le_refl 0
    have hB0 : 0 ≤ B := by
      rw [hB_def]
      exact add_nonneg hb hpb
    have hacc : ∀ row ∈ AR,
        row.phase = "ACCUMULATION" ∧ 0 ≤ row.remainingBitcoin ∧ 0 ≤ row.remainingCash := by
      intro row hrow
      rw [hAR_def] at hrow
      rw [List.reduceOption_mem_iff] at hrow
      rw [hAP_def] at hrow
      revert hrow
      split_ifs with h
      · intro hrow
        exact part004_accumulationRow_fact fvYear currentYear ri.bitcoinAmount
          ri.cashAmount msi.doubleDownInBearMarkets proj hb hc hprojfact Y 0
          (some row) hrow row rfl
      · intro hrow
        simp at hrow
    have halen : AR.length ≤ Y := by
      rw [hAR_def, hAP_def]
      split_ifs with h
      · refine le_trans (List.reduceOption_length_le _) ?_
        rw [mapAccumL_length, List.length_range]
      · simp
    have hloop := part004_withdrawalLoop_nonneg fvYear S ri.annualWithdrawal Y CUM hw hfy
      50 0 B ri.cashAmount hB0 hc
    have hstops := part004_withdrawalLoop_stops fvYear S ri.annualWithdrawal Y CUM
      50 0 B ri.cashAmount
    obtain ⟨H1, H2, H3⟩ := ledger_parts_invariants AR WR Y hacc hloop.1 halen hloop.2
      (fun i row next h1 h2 => hstops i row next h1 h2)
    refine ⟨?_, H2, ?_⟩
    · intro row hrow
      refine ⟨le_trans (by norm_num) (H1 row hrow).1,
        le_trans (by norm_num) (H1 row hrow).2⟩
    · intro i row next h1 h2 hp
      exact H3 i row next h1 h2 hp

/-- Witness for C7 at concrete inputs: one bitcoin, no cash, withdrawal 1,
savings disabled, constant fair value 100. -/
theorem simulate50_ledger_invariants_witness :
    (∀ row ∈ Part004.simulate50YearWithdrawals (fun _ => 100) (fun _ _ => 100) 2025 50
        ⟨1, 1, 0, 0⟩ ⟨false, 0, 0, false⟩,
      (-1e-6 : ℚ) ≤ row.remainingBitcoin ∧ (-1e-6 : ℚ) ≤ row.remainingCash) ∧
    (Part004.simulate50YearWithdrawals (fun _ => 100) (fun _ _ => 100) 2025 50
        ⟨1, 1, 0, 0⟩ ⟨false, 0, 0, false⟩).length ≤
      (if (⟨false, 0, 0, false⟩ : Part004.MonthlySavingsInputs).enabled then
        (⟨false, 0, 0, false⟩ : Part004.MonthlySavingsInputs).yearsToRetirement else 0) + 50 ∧
    (∀ (i : ℕ) (row next : Part004.SimulationRow),
      (Part004.simulate50YearWithdrawals (fun _ => 100) (fun _ _ => 100) 2025 50
        ⟨1, 1, 0, 0⟩ ⟨false, 0, 0, false⟩).get? i = some row →
      (Part004.simulate50YearWithdrawals (fun _ => 100) (fun _ _ => 100) 2025 50
        ⟨1, 1, 0, 0⟩ ⟨false, 0, 0, false⟩).get? (i + 1) = some next →
      row.phase ≠ "ACCUMULATION" →
      ¬(row.remainingBitcoin ≤ 0 ∧ row.remainingCash ≤ 0)) :=
  simulate50_ledger_invariants (fun _ => 100) (fun _ _ => 100) 2025 50 ⟨1, 1, 0, 0⟩
    ⟨false, 0, 0, false⟩ (by norm_num) (by norm_num) (fun _ => by norm_num)
    (fun _ _ => by norm_num)

namespace BitcoinChart

/-- One monthly row of `calculateMonthlySavingsProjection` in
`BitcoinChart.tsx` (this variant records no cycle price: purchases happen at
fair value). -/
structure SavingsProjection where
  year : ℕ
  month : ℕ
  monthlySavingsAmount : ℚ
  bitcoinFairValue : ℚ
  bitcoinPurchased : ℚ
  totalBitcoinAccumulated : ℚ
  totalCashInvested : ℚ
deriving DecidableEq

/-- The body of the monthly loop of `calculateMonthlySavingsProjection` in
`BitcoinChart.tsx` (lines 176–226).  The running `currentMonthlySavings`
with its 4% yearly wage growth is the closed form
`monthlySavingsAmount × 1.04 ^ year`; bear years are `year % 4 = 3`. -/
def savingsStep (fvMonth : ℕ → ℕ → ℚ) (monthlySavingsAmount : ℚ)
    (doubleDownInBearMarkets : Bool) (acc : ℚ × ℚ) (ym : ℕ × ℕ) :
    SavingsProjection × (ℚ × ℚ) :=
  let year := ym.1
  let month := ym.2
  let cycleYear := year % 4
  let isBearMarketYear : Bool := decide (cycleYear = 3)
  let currentMonthlySavings := monthlySavingsAmount * 1.04 ^ year
  let bitcoinFairValue := fvMonth year month
  let actualMonthlySavings :=
    if doubleDownInBearMarkets && isBearMarketYear then currentMonthlySavings * 2
    else currentMonthlySavings
  let bitcoinPurchased := actualMonthlySavings / bitcoinFairValue
  let tb := acc.1 + bitcoinPurchased
  let tc := acc.2 + actualMonthlySavings
  ({ year := year + 1, month := month + 1
     monthlySavingsAmount := actualMonthlySavings
     bitcoinFairValue := bitcoinFairValue
     bitcoinPurchased := bitcoinPurchased
     totalBitcoinAccumulated := tb
     totalCashInvested := tc }, (tb, tc))

/-- `calculateMonthlySavingsProjection` from `BitcoinChart.tsx` (lines
164–229), including its entry guard. -/
def calculateMonthlySavingsProjection (fvMonth : ℕ → ℕ → ℚ) (enabled : Bool)
    (monthlySavingsAmount : ℚ) (yearsToRetirement : ℕ)
    (doubleDownInBearMarkets : Bool) : List SavingsProjection :=
  if enabled = false ∨ monthlySavingsAmount ≤ 0 ∨ yearsToRetirement = 0 then []
  else
    (mapAccumL (savingsStep fvMonth monthlySavingsAmount doubleDownInBearMarkets)
      (0, 0) (RetirementCalculations.monthIndices yearsToRetirement)).1

/-- One year of the accumulation phase of `simulate50YearWithdrawals` in
`BitcoinChart.tsx` (lines 469–563): the `yearlyAggregation` hashmap is
modelled by filtering the ordered projection for the year's months; the
cycle here is keyed on `year % 4` (0 Recovery, 1 Bull, 2 Peak/Correction,
3 Bear at floor). -/
def accumulationStep (fvYear : ℤ → ℚ) (currentYear : ℤ)
    (bitcoinAmount cashAmount : ℚ) (doubleDownInBearMarkets : Bool)
    (proj : List SavingsProjection) (cum : ℚ) (year : ℕ) :
    Option Part004.SimulationRow × ℚ :=
  let simulationYear := currentYear + year
  let bitcoinFairValue := fvYear simulationYear
  let months := proj.filter (fun m => m.year = year + 1)
  match months.getLast? with
  | none => (none, cum)
  | some lastMonth =>
    let bitcoinPurchased := (months.map (·.bitcoinPurchased)).sum
    let cashInvested := (months.map (·.monthlySavingsAmount)).sum
    let endingBitcoin := bitcoinAmount + lastMonth.totalBitcoinAccumulated
    let cum2 := cum + cashInvested
    let cycleYear := year % 4
    let isBearMarketYear : Bool := decide (cycleYear = 3)
    let floorValue := bitcoinFairValue * 0.42
    let upperBound := bitcoinFairValue * 2.0
    let cyclePricePhase : ℚ × String :=
      if cycleYear = 0 then ((floorValue + bitcoinFairValue) / 2, "Recovery")
      else if cycleYear = 1 then ((bitcoinFairValue + upperBound) / 2, "Bull")
      else if cycleYear = 2 then (bitcoinFairValue, "Peak/Correction")
      else if cycleYear = 3 then (floorValue, "Bear (Power Law Floor)")
      else (bitcoinFairValue, "Fair Value")
    (some { year := simulationYear, yearNumber := year + 1, phase := "ACCUMULATION"
            bitcoinPrice := cyclePricePhase.1, fairValue := bitcoinFairValue
            priceToFairRatio := cyclePricePhase.1 / bitcoinFairValue
            cyclePhase := cyclePricePhase.2, annualWithdrawal := 0
            withdrawalSource :=
              if doubleDownInBearMarkets && isBearMarketYear then
                "Investing (2x Bear Market!)"
              else "Investing"
            cashUsed := 0, bitcoinSold := 0, bitcoinPurchased := bitcoinPurchased
            remainingCash := cashAmount, remainingBitcoin := endingBitcoin
            remainingBitcoinValue := endingBitcoin * cyclePricePhase.1
            totalRemainingValue := endingBitcoin * cyclePricePhase.1 + cashAmount
            totalCashInvested := cum2 }, cum2)

/-- The per-year state update of the `BitcoinChart.tsx` withdrawal loop
(lines 641–678): year 0 withdraws nothing and leaves the balances
untouched; later years apply the inline cash-below-fair-value /
bitcoin-otherwise rule, clamp negative bitcoin to zero and tag the label. -/
structure ChartStepResult where
  actualWithdrawal : ℚ
  cashUsed : ℚ
  bitcoinSold : ℚ
  remainingCash : ℚ
  remainingBitcoin : ℚ
  withdrawalSource : String
deriving DecidableEq

def chartStep (w bitcoinPrice priceToFairRatio : ℚ) (year : ℕ)
    (remainingCash remainingBitcoin : ℚ) : ChartStepResult :=
  if year = 0 then
    { actualWithdrawal := 0, cashUsed := 0, bitcoinSold := 0
      remainingCash := remainingCash, remainingBitcoin := remainingBitcoin
      withdrawalSource := "Retirement Start (No Withdrawal Yet)" }
  else
    let shouldUseCash : Bool := decide (priceToFairRatio < 1.0) && decide (remainingCash > 0)
    let t0 : ChartStepResult :=
      if shouldUseCash && decide (remainingCash ≥ w) then
        { actualWithdrawal := w, cashUsed := w, bitcoinSold := 0
          remainingCash := remainingCash - w, remainingBitcoin := remainingBitcoin
          withdrawalSource := "Cash (HODL)" }
      else if shouldUseCash && decide (remainingCash > 0) then
        let bitcoinNeeded := w - remainingCash
        let bitcoinSold := bitcoinNeeded / bitcoinPrice
        { actualWithdrawal := w, cashUsed := remainingCash, bitcoinSold := bitcoinSold
          remainingCash := 0, remainingBitcoin := remainingBitcoin - bitcoinSold
          withdrawalSource := "Cash + Bitcoin" }
      else
        let bitcoinSold := w / bitcoinPrice
        { actualWithdrawal := w, cashUsed := 0, bitcoinSold := bitcoinSold
          remainingCash := remainingCash, remainingBitcoin := remainingBitcoin - bitcoinSold
          withdrawalSource := "Bitcoin" }
    if t0.remainingBitcoin < 0 then
      { actualWithdrawal := t0.actualWithdrawal, cashUsed := t0.cashUsed
        bitcoinSold := t0.bitcoinSold, remainingCash := t0.remainingCash
        remainingBitcoin := 0
        withdrawalSource := t0.withdrawalSource ++ " (DEPLETED)" }
    else t0

/-- The withdrawal loop of `simulate50YearWithdrawals` in `BitcoinChart.tsx`
(lines 584–707), with the `year < 50` bound as structural fuel. -/
def chartWithdrawalLoop (fvYear : ℤ → ℚ) (start : ℤ) (w : ℚ) (ytr : ℕ) (cum : ℚ) :
    ℕ → ℕ → ℚ → ℚ → List Part004.SimulationRow
  | 0, _, _, _ => []
  | fuel + 1, year, remainingBitcoin, remainingCash =>
    let currentSimulationYear := start + year
    let fairValue := fvYear currentSimulationYear
    let floorValue := fairValue * 0.42
    let upperBound := fairValue * 2.0
    let pp : ℚ × String :=
      if year = 0 then (fairValue, "Retirement Start (Fair Value)")
      else
        let adjustedCycleYear := (year - 1) % 4
        if adjustedCycleYear = 0 then (floorValue, "Bear (Power Law Floor)")
        else if adjustedCycleYear = 1 then ((floorValue + fairValue) / 2, "Recovery")
        else if adjustedCycleYear = 2 then ((fairValue + upperBound) / 2, "Bull")
        else if adjustedCycleYear = 3 then (fairValue, "Peak/Correction")
        else (fairValue, "Fair Value")
    let bitcoinPrice := pp.1
    let priceToFairRatio := bitcoinPrice / fairValue
    let st := chartStep w bitcoinPrice priceToFairRatio year remainingCash remainingBitcoin
    let row : Part004.SimulationRow :=
      { year := currentSimulationYear, yearNumber := ytr + year + 1
        phase := if year = 0 then "RETIREMENT START" else "WITHDRAWAL"
        bitcoinPrice := bitcoinPrice, fairValue := fairValue
        priceToFairRatio := priceToFairRatio, cyclePhase := pp.2
        annualWithdrawal := st.actualWithdrawal
        withdrawalSource := st.withdrawalSource
        cashUsed := st.cashUsed, bitcoinSold := st.bitcoinSold, bitcoinPurchased := 0
        remainingCash := st.remainingCash, remainingBitcoin := st.remainingBitcoin
        remainingBitcoinValue := st.remainingBitcoin * bitcoinPrice
        totalRemainingValue := st.remainingBitcoin * bitcoinPrice + st.remainingCash
        totalCashInvested := cum }
    row :: (if st.remainingBitcoin ≤ 0 ∧ st.remainingCash ≤ 0 then []
            else chartWithdrawalLoop fvYear start w ytr cum fuel (year + 1)
              st.remainingBitcoin st.remainingCash)

/-- The bitcoin balance at the start of retirement as
`simulate50YearWithdrawals` computes it (`BitcoinChart.tsx`, lines 459–466):
the entered amount plus the projected accumulation total. -/
def accumulatedBitcoinStart (fvMonth : ℕ → ℕ → ℚ) (ri : Part004.RetirementInputs)
    (msi : Part004.MonthlySavingsInputs) : ℚ :=
  let savingsProjection := calculateMonthlySavingsProjection fvMonth msi.enabled
    msi.monthlySavingsAmount msi.yearsToRetirement msi.doubleDownInBearMarkets
  let projectedBitcoin :=
    if msi.enabled = true ∧ savingsProjection ≠ [] then
      (Option.map SavingsProjection.totalBitcoinAccumulated
        savingsProjection.getLast?).getD 0
    else 0
  ri.bitcoinAmount + projectedBitcoin

/-- `simulate50YearWithdrawals` from `BitcoinChart.tsx` (lines 445–710).
Unlike the `part_004` variant, the retirement start year is
`currentYear + yearsToRetirement` (no `max` with the years-until-retirement
input) and year 0 of the withdrawal phase does not withdraw. -/
def simulate50YearWithdrawals (fvYear : ℤ → ℚ) (fvMonth : ℕ → ℕ → ℚ)
    (currentYear : ℤ) (currentPrice : ℚ) (ri : Part004.RetirementInputs)
    (msi : Part004.MonthlySavingsInputs) : List Part004.SimulationRow :=
  if currentPrice = 0 ∨
      ¬(0 < ri.bitcoinAmount ∨ (msi.enabled = true ∧ 0 < msi.monthlySavingsAmount)) ∨
      ri.annualWithdrawal ≤ 0 then []
  else
    let yearsToRetirement := if msi.enabled then msi.yearsToRetirement else 0
    let retirementStartYear := currentYear + (yearsToRetirement : ℤ)
    let savingsProjection := calculateMonthlySavingsProjection fvMonth msi.enabled
      msi.monthlySavingsAmount msi.yearsToRetirement msi.doubleDownInBearMarkets
    let totalCashInvested :=
      if msi.enabled = true ∧ savingsProjection ≠ [] then
        (Option.map SavingsProjection.totalCashInvested savingsProjection.getLast?).getD 0
      else 0
    let accumulatedBitcoin := accumulatedBitcoinStart fvMonth ri msi
    let accPair :=
      if msi.enabled = true ∧ yearsToRetirement ≠ 0 then
        mapAccumL
          (accumulationStep fvYear currentYear ri.bitcoinAmount ri.cashAmount
            msi.doubleDownInBearMarkets savingsProjection)
          0 (List.range yearsToRetirement)
      else ([], 0)
    let accRows := accPair.1.reduceOption
    let cumulativeCashInvested := if accPair.2 = 0 then totalCashInvested else accPair.2
    accRows ++ chartWithdrawalLoop fvYear retirementStartYear ri.annualWithdrawal
      yearsToRetirement cumulativeCashInvested 50 0 accumulatedBitcoin ri.cashAmount

end BitcoinChart

theorem chartAccumulationRow_phase (fvYear : ℤ → ℚ) (currentYear : ℤ)
    (bA cA : ℚ) (dd : Bool) (proj : List BitcoinChart.SavingsProjection) :
    ∀ (years : ℕ) (cum : ℚ),
      ∀ orow ∈ (mapAccumL (BitcoinChart.accumulationStep fvYear currentYear bA cA dd proj)
          cum (List.range years)).1,
        ∀ r, orow = some r → r.phase = "ACCUMULATION" := by
  intro years cum orow horow
  refine mapAccumL_forall_state _ (fun _ => True)
    (fun b => ∀ r, b = some r → r.phase = "ACCUMULATION") ?_ _ _ trivial orow horow
  intro s a _
  refine ⟨?_, trivial⟩
  intro r hr
  unfold BitcoinChart.accumulationStep at hr
  dsimp only at hr
  rcases hlast : (proj.filter (fun m => m.year = a + 1)).getLast? with _ | lastMonth
  · rw [hlast] at hr
    simp at hr
  · rw [hlast] at hr
    dsimp only at hr
    injection hr with hr
    subst hr
    rfl

theorem chartStep_year_pos (w bitcoinPrice priceToFairRatio : ℚ) (year : ℕ)
    (c b : ℚ) (hy : year ≠ 0) :
    (BitcoinChart.chartStep w bitcoinPrice priceToFairRatio year c b).actualWithdrawal = w := by
  unfold BitcoinChart.chartStep
  rw [if_neg hy]
  dsimp only
  split_ifs <;> rfl

theorem mem_ite_nil_left {α : Type} {c : Prop} [Decidable c] {l : List α} {a : α}
    (h : a ∈ if c then ([] : List α) else l) : a ∈ l := by
  split_ifs at h
  · cases h
  · exact h

theorem chartWithdrawalLoop_phase (fvYear : ℤ → ℚ) (start : ℤ) (w : ℚ)
    (ytr : ℕ) (cum : ℚ) :
    ∀ (fuel year : ℕ) (b c : ℚ),
      ∀ r ∈ BitcoinChart.chartWithdrawalLoop fvYear start w ytr cum fuel year b c,
        r.phase ≠ "ACCUMULATION" := by
  intro fuel
  induction fuel with
  | zero =>
    intro year b c r hr
    cases hr
  | succ n ih =>
    intro year b c r hr
    rw [BitcoinChart.chartWithdrawalLoop] at hr
    rcases List.mem_cons.mp hr with rfl | hr
    · show (if year = 0 then "RETIREMENT START" else "WITHDRAWAL") ≠ "ACCUMULATION"
      split_ifs <;> decide
    · exact ih (year + 1) _ _ r (mem_ite_nil_left hr)

theorem chartWithdrawalLoop_withdraws (fvYear : ℤ → ℚ) (start : ℤ) (w : ℚ)
    (ytr : ℕ) (cum : ℚ) :
    ∀ (fuel year : ℕ) (b c : ℚ), 1 ≤ year →
      ∀ r ∈ BitcoinChart.chartWithdrawalLoop fvYear start w ytr cum fuel year b c,
        r.annualWithdrawal = w := by
  intro fuel
  induction fuel with
  | zero =>
    intro year b c hy r hr
    cases hr
  | succ n ih =>
    intro year b c hy r hr
    rw [BitcoinChart.chartWithdrawalLoop] at hr
    rcases List.mem_cons.mp hr with rfl | hr
    · exact chartStep_year_pos _ _ _ year c b (by omega)
    · exact ih (year + 1) _ _ (by omega) r (mem_ite_nil_left hr)

/-- C2: whenever the `BitcoinChart.tsx` 50-year simulation runs (nonzero
current price, some assets, positive withdrawal), the first
withdrawal-phase row — year 0, the retirement start — records no
withdrawal: its withdrawal amount, cash used and bitcoin sold are all zero
and it carries the starting balances (the entered cash and the accumulated
bitcoin), and every later withdrawal-phase row withdraws the annual
amount. -/
theorem chart_simulate_year0_row (fvYear : ℤ → ℚ) (fvMonth : ℕ → ℕ → ℚ)
    (currentYear : ℤ) (currentPrice : ℚ) (ri : Part004.RetirementInputs)
    (msi : Part004.MonthlySavingsInputs)
    (hp : currentPrice ≠ 0)
    (ha : 0 < ri.bitcoinAmount ∨ (msi.enabled = true ∧ 0 < msi.monthlySavingsAmount))
    (hw : 0 < ri.annualWithdrawal) :
    (∀ row, ((BitcoinChart.simulate50YearWithdrawals fvYear fvMonth currentYear
        currentPrice ri msi).filter
          (fun r => decide (r.phase ≠ "ACCUMULATION"))).head? = some row →
      row.phase = "RETIREMENT START" ∧ row.annualWithdrawal = 0 ∧ row.cashUsed = 0 ∧
      row.bitcoinSold = 0 ∧ row.remainingCash = ri.cashAmount ∧
      row.remainingBitcoin = BitcoinChart.accumulatedBitcoinStart fvMonth ri msi) ∧
    ((BitcoinChart.simulate50YearWithdrawals fvYear fvMonth currentYear currentPrice ri
        msi).filter (fun r => decide (r.phase ≠ "ACCUMULATION"))) ≠ [] ∧
    (∀ row ∈ ((BitcoinChart.simulate50YearWithdrawals fvYear fvMonth currentYear
        currentPrice ri msi).filter
          (fun r => decide (r.phase ≠ "ACCUMULATION"))).tail,
      row.annualWithdrawal = ri.annualWithdrawal) := by
  have hguard : ¬(currentPrice = 0 ∨
      ¬(0 < ri.bitcoinAmount ∨ (msi.enabled = true ∧ 0 < msi.monthlySavingsAmount)) ∨
      ri.annualWithdrawal ≤ 0) := by
    push_neg
    exact ⟨hp, ha, hw⟩
  unfold BitcoinChart.simulate50YearWithdrawals
  rw [if_neg hguard]
  dsimp only
  set Y := if msi.enabled = true then msi.yearsToRetirement else 0 with hY_def
  set proj := BitcoinChart.calculateMonthlySavingsProjection fvMonth msi.enabled
    msi.monthlySavingsAmount msi.yearsToRetirement msi.doubleDownInBearMarkets
    with hproj_def
  set TCI := if msi.enabled = true ∧ proj ≠ [] then
      (Option.map BitcoinChart.SavingsProjection.totalCashInvested proj.getLast?).getD 0
    else 0 with hTCI_def
  set AB := BitcoinChart.accumulatedBitcoinStart fvMonth ri msi with hAB_def
  set AP := if msi.enabled = true ∧ Y ≠ 0 then
      mapAccumL
        (BitcoinChart.accumulationStep fvYear currentYear ri.bitcoinAmount ri.cashAmount
          msi.doubleDownInBearMarkets proj)
        0 (List.range Y)
    else ([], 0) with hAP_def
  set AR := AP.1.reduceOption with hAR_def
  set CUM := if AP.2 = 0 then TCI else AP.2 with hCUM_def
  set S := currentYear + (Y : ℤ) with hS_def
  set WR := BitcoinChart.chartWithdrawalLoop fvYear S ri.annualWithdrawal Y CUM 50 0 AB
    ri.cashAmount with hWR_def
  have h1 : AR.filter (fun r => decide (r.phase ≠ "ACCUMULATION")) = [] := by
    rw [List.filter_eq_nil_iff]
    intro r hr
    rw [hAR_def, List.reduceOption_mem_iff, hAP_def] at hr
    revert hr
    split_ifs with h
    · intro hr
      have := chartAccumulationRow_phase fvYear currentYear ri.bitcoinAmount ri.cashAmount
        msi.doubleDownInBearMarkets proj Y 0 (some r) hr r rfl
      simp [this]
    · intro hr
      simp at hr
  have h2 : WR.filter (fun r => decide (r.phase ≠ "ACCUMULATION")) = WR := by
    rw [List.filter_eq_self]
    intro r hr
    rw [hWR_def] at hr
    have := chartWithdrawalLoop_phase fvYear S ri.annualWithdrawal Y CUM 50 0 AB
      ri.cashAmount r hr
    simpa using this
  rw [List.filter_append, h1, h2, List.nil_append]
  rw [hWR_def, BitcoinChart.chartWithdrawalLoop]
  refine ⟨?_, by simp, ?_⟩
  · intro row hrow
    rw [List.head?_cons] at hrow
    injection hrow with hrow
    subst hrow
    refine ⟨rfl, ?_, ?_, ?_, ?_, ?_⟩ <;>
      simp [BitcoinChart.chartStep]
  · intro row hrow
    rw [List.tail_cons] at hrow
    exact chartWithdrawalLoop_withdraws fvYear S ri.annualWithdrawal Y CUM 49 1 _ _
      le_rfl row (mem_ite_nil_left hrow)

/-- Witness for C2: constant fair value 100, current price 50, one bitcoin,
cash 3, withdrawal 2, savings disabled. -/
theorem chart_simulate_year0_row_witness :
    (∀ row, ((BitcoinChart.simulate50YearWithdrawals (fun _ => 100) (fun _ _ => 100) 2025
        50 ⟨1, 2, 3, 0⟩ ⟨false, 0, 0, false⟩).filter
          (fun r => decide (r.phase ≠ "ACCUMULATION"))).head? = some row →
      row.phase = "RETIREMENT START" ∧ row.annualWithdrawal = 0 ∧ row.cashUsed = 0 ∧
      row.bitcoinSold = 0 ∧
      row.remainingCash = (⟨1, 2, 3, 0⟩ : Part004.RetirementInputs).cashAmount ∧
      row.remainingBitcoin = BitcoinChart.accumulatedBitcoinStart (fun _ _ => 100)
        ⟨1, 2, 3, 0⟩ ⟨false, 0, 0, false⟩) ∧
    ((BitcoinChart.simulate50YearWithdrawals (fun _ => 100) (fun _ _ => 100) 2025 50
        ⟨1, 2, 3, 0⟩ ⟨false, 0, 0, false⟩).filter
          (fun r => decide (r.phase ≠ "ACCUMULATION"))) ≠ [] ∧
    (∀ row ∈ ((BitcoinChart.simulate50YearWithdrawals (fun _ => 100) (fun _ _ => 100) 2025
        50 ⟨1, 2, 3, 0⟩ ⟨false, 0, 0, false⟩).filter
          (fun r => decide (r.phase ≠ "ACCUMULATION"))).tail,
      row.annualWithdrawal = (⟨1, 2, 3, 0⟩ : Part004.RetirementInputs).annualWithdrawal) :=
  chart_simulate_year0_row (fun _ => 100) (fun _ _ => 100) 2025 50 ⟨1, 2, 3, 0⟩
    ⟨false, 0, 0, false⟩ (by norm_num) (Or.inl (by norm_num)) (by norm_num)
